import Mathlib

/-!
Shallow embedding of the budget-reallocation engine of
src/src/processador_orcamento.py (class ProcessadorOrcamento) and proofs
about it.  Monetary values are modelled as rationals, fund codes as
Option of an integer (None meaning no fund), natures are addressed by a
pair (unit index, nature index) into the state, mirroring the dict
references mutated in place by the Python code.
-/

namespace Orcamento

/-- The 20 percent reserve constant (PERCENTUAL_RESERVA_MINIMA = 0.20). -/
def PERCENTUAL_RESERVA_MINIMA : ℚ := 1/5

/-- The 40 percent per-operation cap (PERCENTUAL_DOACAO_MAXIMA_POR_VEZ = 0.40). -/
def PERCENTUAL_DOACAO_MAXIMA_POR_VEZ : ℚ := 2/5

/-- The single-donor optimisation flag (PRIORIZAR_DOACAO_UNICA = True). -/
def PRIORIZAR_DOACAO_UNICA : Bool := true

/-- A nature row as built by identificar_estrutura: codigo, nome, original
and current balance, first two digits of the code, resolved fund, and the
transient necessidade_total key (absent until identificar_deficits sets it). -/
structure Natureza where
  codigo : String
  nome : String
  saldo_original : ℚ
  saldo_atual : ℚ
  dois_primeiros_digitos : String
  fonte : Option ℤ
  necessidade_total : Option ℚ
deriving DecidableEq, Repr

/-- A unit (UG) row: codigo, nome, fund, total balance as parsed, and its natures. -/
structure UG where
  codigo : String
  nome : String
  fonte : Option ℤ
  saldo_total : ℚ
  naturezas : List Natureza
deriving DecidableEq, Repr

/-- One entry of self.remanejamentos as appended by registrar_transferencia
(the duplicated lowercase keys ug_origem and ug_destino carry the same
values as the capitalised ones and are not repeated here). -/
structure Registro where
  tipo : String
  fonte : Option ℤ
  ugOrigem : String
  natOrigem : String
  nomeNatOrigem : String
  ugDestino : String
  natDestino : String
  nomeNatDestino : String
  valor : ℚ
deriving DecidableEq, Repr

/-- The mutable per-run state: self.ugs_dados and self.remanejamentos. -/
structure Estado where
  ugs : List UG
  remanejamentos : List Registro
deriving DecidableEq, Repr

/-- The constructor parameters of ProcessadorOrcamento: fonte_proibida and
naturezas_proibidas. -/
structure Config where
  fonteProibida : Option ℤ
  naturezasProibidas : List String
deriving DecidableEq, Repr

/-- Replace the element at an index, leaving the list unchanged when the
index is out of range (in-place dict mutation through a list reference). -/
def listModify (f : α → α) : ℕ → List α → List α
  | _, [] => []
  | 0, x :: xs => f x :: xs
  | n+1, x :: xs => x :: listModify f n xs

/-- Stable insertion used by ordenaDesc. -/
def insereDesc (key : α → ℚ) (x : α) : List α → List α
  | [] => [x]
  | y :: ys => if key y ≤ key x then x :: y :: ys else y :: insereDesc key x ys

/-- Stable descending sort, the semantics of Python list.sort(key=key, reverse=True). -/
def ordenaDesc (key : α → ℚ) : List α → List α
  | [] => []
  | x :: xs => insereDesc key x (ordenaDesc key xs)

/-- Round a rational to the nearest integer with ties to even, the
behaviour of the Python builtin round. -/
def arredondaMeioPar (q : ℚ) : ℤ :=
  let n := ⌊q⌋
  if q - n < 1/2 then n
  else if (1 : ℚ)/2 < q - n then n + 1
  else if n % 2 = 0 then n else n + 1

/-- Python round(q, 2). -/
def round2 (q : ℚ) : ℚ := (arredondaMeioPar (q * 100) : ℚ) / 100

/-- Read the nature stored at address (unit index, nature index). -/
def getNat (s : Estado) (a : ℕ × ℕ) : Option Natureza :=
  match s.ugs[a.1]? with
  | some ug => ug.naturezas[a.2]?
  | none => none

/-- Mutate the nature stored at an address in place. -/
def modifyNat (s : Estado) (a : ℕ × ℕ) (f : Natureza → Natureza) : Estado :=
  { s with ugs := listModify (fun ug => { ug with naturezas := listModify f a.2 ug.naturezas }) a.1 s.ugs }

/-- The assignment nat[necessidade_total] = q. -/
def setNecessidade (s : Estado) (a : ℕ × ℕ) (q : ℚ) : Estado :=
  modifyNat s a (fun n => { n with necessidade_total := some q })

/-- Remove every dot and space from a code and strip surrounding
whitespace: the normalisation codigo.replace and strip performed by
natureza_eh_proibida, written on the character list so that the kernel
can evaluate it. -/
def limpaCodigo (codigo : String) : String :=
  String.mk (((((codigo.data.filter (fun ch => decide (ch ≠ '.') && decide (ch ≠ ' '))).dropWhile
    Char.isWhitespace).reverse.dropWhile Char.isWhitespace).reverse))

/-- natureza_eh_proibida: strip dots and spaces from the code and test
membership in the configured prohibited set. -/
def natureza_eh_proibida (cfg : Config) (codigo : String) : Bool :=
  decide (limpaCodigo codigo ∈ cfg.naturezasProibidas)

/-- calcular_capacidade_doacao, translated line by line from the source. -/
def calcular_capacidade_doacao (n : Natureza) : ℚ :=
  if n.saldo_atual ≤ 0 then 0
  else
    let saldo_minimo := n.saldo_original * PERCENTUAL_RESERVA_MINIMA
    let capacidade_maxima := n.saldo_original - saldo_minimo
    let doacao_maxima_por_vez := n.saldo_original * PERCENTUAL_DOACAO_MAXIMA_POR_VEZ
    let quanto_ja_doou := n.saldo_original - n.saldo_atual
    let quanto_ainda_pode_doar := max 0 (capacidade_maxima - quanto_ja_doou)
    let capacidade_real := min quanto_ainda_pode_doar doacao_maxima_por_vez
    max 0 (min capacidade_real (n.saldo_atual - saldo_minimo))

/-- The fund written into a transfer record: the source nature fund, or,
when that is absent, the fund of the unit whose code equals ug_origem. -/
def resolverFonte (s : Estado) (nO : Natureza) (ugOrigem : String) : Option ℤ :=
  match nO.fonte with
  | some f => some f
  | none =>
    match s.ugs.find? (fun ug => decide (ug.codigo = ugOrigem)) with
    | some ug => ug.fonte
    | none => none

/-- The dict appended to self.remanejamentos on a successful commit. -/
def montarRegistro (s : Estado) (ugOrigem ugDestino tipo : String)
    (nO nD : Natureza) (valor : ℚ) : Registro :=
  { tipo := tipo
    fonte := resolverFonte s nO ugOrigem
    ugOrigem := ugOrigem
    natOrigem := nO.codigo
    nomeNatOrigem := nO.nome
    ugDestino := ugDestino
    natDestino := nD.codigo
    nomeNatDestino := nD.nome
    valor := round2 valor }

/-- registrar_transferencia: the early-return validations followed by the
record append and the two balance updates.  Addresses that do not resolve
to a nature leave the state unchanged (unreachable from the passes, which
only pass live addresses). -/
def registrar_transferencia (cfg : Config) (ugOrigem : String) (aOrigem : ℕ × ℕ)
    (ugDestino : String) (aDestino : ℕ × ℕ) (valor : ℚ) (tipo : String)
    (s : Estado) : Estado :=
  match getNat s aOrigem, getNat s aDestino with
  | some nO, some nD =>
    if nO.saldo_original ≤ 0 then s
    else if 0 ≤ nD.saldo_original then s
    else if nO.saldo_atual < valor then s
    else if nO.saldo_atual - valor < nO.saldo_original * PERCENTUAL_RESERVA_MINIMA then s
    else if natureza_eh_proibida cfg nO.codigo then s
    else if natureza_eh_proibida cfg nD.codigo then s
    else
      let s1 : Estado :=
        { s with remanejamentos :=
            s.remanejamentos ++ [montarRegistro s ugOrigem ugDestino tipo nO nD valor] }
      let s2 := modifyNat s1 aOrigem (fun n => { n with saldo_atual := n.saldo_atual - valor })
      modifyNat s2 aDestino (fun n => { n with saldo_atual := n.saldo_atual + valor })
  | _, _ => s

/-- One iteration of the nature loop of identificar_deficits. -/
def identificarNaturezas (cfg : Config) (i : ℕ) : List ℕ → Estado × ℕ → Estado × ℕ
  | [], st => st
  | j :: js, (s, c) =>
    match getNat s (i, j) with
    | none => identificarNaturezas cfg i js (s, c)
    | some n =>
      if 0 ≤ n.saldo_original then identificarNaturezas cfg i js (s, c)
      else if n.fonte = cfg.fonteProibida then identificarNaturezas cfg i js (s, c)
      else if natureza_eh_proibida cfg n.codigo then identificarNaturezas cfg i js (s, c)
      else identificarNaturezas cfg i js (setNecessidade s (i, j) |n.saldo_original|, c + 1)

/-- The unit loop of identificar_deficits. -/
def identificarUGs (cfg : Config) : List ℕ → Estado × ℕ → Estado × ℕ
  | [], st => st
  | i :: resto, (s, c) =>
    match s.ugs[i]? with
    | none => identificarUGs cfg resto (s, c)
    | some ug =>
      if ug.fonte = cfg.fonteProibida then identificarUGs cfg resto (s, c)
      else identificarUGs cfg resto (identificarNaturezas cfg i (List.range ug.naturezas.length) (s, c))

/-- identificar_deficits: annotate every eligible deficit nature with
necessidade_total = |saldo_original| and count them. -/
def identificar_deficits (cfg : Config) (s : Estado) : Estado × ℕ :=
  identificarUGs cfg (List.range s.ugs.length) (s, 0)

/-- The deficitarias filter of remanejamento_interno. -/
def ehDeficitariaInterna (cfg : Config) (s : Estado) (i j : ℕ) : Bool :=
  match getNat s (i, j) with
  | some n =>
    decide (n.saldo_atual < 0) && decide (n.fonte ≠ cfg.fonteProibida) &&
      !(natureza_eh_proibida cfg n.codigo)
  | none => false

/-- The superavitarias filter, shared by both passes. -/
def ehSuperavitaria (cfg : Config) (s : Estado) (i j : ℕ) : Bool :=
  match getNat s (i, j) with
  | some n =>
    decide (0 < n.saldo_atual) && decide (n.fonte ≠ cfg.fonteProibida) &&
      !(natureza_eh_proibida cfg n.codigo)
  | none => false

/-- Current saldo_atual at an address (sort key). -/
def saldoAtualEm (s : Estado) (i k : ℕ) : ℚ :=
  match getNat s (i, k) with
  | some n => n.saldo_atual
  | none => 0

/-- Current dois_primeiros_digitos at an address. -/
def digitosEm (s : Estado) (i k : ℕ) : String :=
  match getNat s (i, k) with
  | some n => n.dois_primeiros_digitos
  | none => ""

/-- Current donation capacity at an address. -/
def capacidadeEm (s : Estado) (i k : ℕ) : ℚ :=
  match getNat s (i, k) with
  | some n => calcular_capacidade_doacao n
  | none => 0

/-- A donor sweep whose loop body decrements necessidade_restante (the
prioritarias loop of the internal pass and both loops of the external
pass).  Returns the state, the remaining need and the last value of the
valor_transferir variable. -/
def varreComDesconto (cfg : Config) (ugOrigem : String) (iDoadora : ℕ)
    (ugDestino : String) (aDeficit : ℕ × ℕ) (tipo : String) :
    List ℕ → ℚ → Option ℚ → Estado → Estado × ℚ × Option ℚ
  | [], nec, vt, s => (s, nec, vt)
  | k :: ks, nec, vt, s =>
    if nec ≤ 1/100 then (s, nec, vt)
    else
      let cap := capacidadeEm s iDoadora k
      if cap ≤ 1/100 then
        varreComDesconto cfg ugOrigem iDoadora ugDestino aDeficit tipo ks nec vt s
      else
        let v := min nec cap
        let s1 := registrar_transferencia cfg ugOrigem (iDoadora, k) ugDestino aDeficit v tipo s
        varreComDesconto cfg ugOrigem iDoadora ugDestino aDeficit tipo ks (nec - v) (some v) s1

/-- The secundarias loop of the internal pass: in the source the statement
that decrements necessidade_restante sits AFTER this loop, not inside it,
so the remaining need stays constant across the loop and only
valor_transferir is updated by each committed transfer. -/
def varreSemDesconto (cfg : Config) (ugOrigem : String) (iDoadora : ℕ)
    (ugDestino : String) (aDeficit : ℕ × ℕ) (tipo : String) :
    List ℕ → ℚ → Option ℚ → Estado → Estado × Option ℚ
  | [], _, vt, s => (s, vt)
  | k :: ks, nec, vt, s =>
    if nec ≤ 1/100 then (s, vt)
    else
      let cap := capacidadeEm s iDoadora k
      if cap ≤ 1/100 then
        varreSemDesconto cfg ugOrigem iDoadora ugDestino aDeficit tipo ks nec vt s
      else
        let v := min nec cap
        let s1 := registrar_transferencia cfg ugOrigem (iDoadora, k) ugDestino aDeficit v tipo s
        varreSemDesconto cfg ugOrigem iDoadora ugDestino aDeficit tipo ks nec (some v) s1

/-- Processing of one deficit nature inside remanejamento_interno.  The
valor_transferir variable is scoped to the whole remanejamento_interno
invocation, so its current value (vt, none while still unbound) is carried
in and returned.  The Bool is the exception flag: true exactly when the
Python code raises UnboundLocalError, which happens when the else branch
reaches the dedented statement necessidade_restante -= valor_transferir
with valor_transferir never assigned anywhere earlier in the invocation;
the state at the raise point is returned alongside. -/
def internoDeficit (cfg : Config) (i : ℕ) (ugCodigo : String)
    (superavitarias : List ℕ) (j : ℕ) (vt : Option ℚ) (s : Estado) :
    Estado × Option ℚ × Bool :=
  match getNat s (i, j) with
  | none => (s, vt, false)
  | some natDeficit =>
    let nec := natDeficit.necessidade_total.getD |natDeficit.saldo_atual|
    if nec ≤ 1/100 then (s, vt, false)
    else
      let digitos := natDeficit.dois_primeiros_digitos
      let prioritarias := ordenaDesc (saldoAtualEm s i)
        (superavitarias.filter (fun k => decide (digitosEm s i k = digitos)))
      let secundarias := ordenaDesc (saldoAtualEm s i)
        (superavitarias.filter (fun k => decide (digitosEm s i k ≠ digitos)))
      let unica := if PRIORIZAR_DOACAO_UNICA then
          (prioritarias ++ secundarias).find? (fun k => decide (nec ≤ capacidadeEm s i k))
        else none
      match unica with
      | some k =>
        let s1 := registrar_transferencia cfg ugCodigo (i, k) ugCodigo (i, j) nec "Interna (única)" s
        (setNecessidade s1 (i, j) 0, vt, false)
      | none =>
        match varreComDesconto cfg ugCodigo i ugCodigo (i, j) "Interna (mesmos dígitos)" prioritarias nec vt s with
        | (s1, nec1, vt1) =>
          match varreSemDesconto cfg ugCodigo i ugCodigo (i, j) "Interna" secundarias nec1 vt1 s1 with
          | (s2, some v) => (setNecessidade s2 (i, j) (max 0 (nec1 - v)), some v, false)
          | (s2, none) => (s2, none, true)

/-- The deficit loop of remanejamento_interno for one unit, stopping when
the exception flag is raised. -/
def internoDeficits (cfg : Config) (i : ℕ) (ugCodigo : String)
    (superavitarias : List ℕ) : List ℕ → Option ℚ → Estado → Estado × Option ℚ × Bool
  | [], vt, s => (s, vt, false)
  | j :: js, vt, s =>
    match internoDeficit cfg i ugCodigo superavitarias j vt s with
    | (s1, vt1, false) => internoDeficits cfg i ugCodigo superavitarias js vt1 s1
    | (s1, vt1, true) => (s1, vt1, true)

/-- Processing of one unit inside remanejamento_interno. -/
def internoUG (cfg : Config) (i : ℕ) (vt : Option ℚ) (s : Estado) :
    Estado × Option ℚ × Bool :=
  match s.ugs[i]? with
  | none => (s, vt, false)
  | some ug =>
    if ug.fonte = cfg.fonteProibida then (s, vt, false)
    else
      let deficitarias := (List.range ug.naturezas.length).filter (ehDeficitariaInterna cfg s i)
      let superavitarias := (List.range ug.naturezas.length).filter (ehSuperavitaria cfg s i)
      if deficitarias.isEmpty then (s, vt, false)
      else if superavitarias.isEmpty then (s, vt, false)
      else internoDeficits cfg i ug.codigo superavitarias deficitarias vt s

/-- The unit loop of remanejamento_interno, propagating the exception. -/
def internoUGsLoop (cfg : Config) : List ℕ → Option ℚ → Estado → Estado × Option ℚ × Bool
  | [], vt, s => (s, vt, false)
  | i :: resto, vt, s =>
    match internoUG cfg i vt s with
    | (s1, vt1, false) => internoUGsLoop cfg resto vt1 s1
    | (s1, vt1, true) => (s1, vt1, true)

/-- remanejamento_interno with the in-memory state kept even when the
UnboundLocalError is raised (valor_transferir starts unbound). -/
def remanejamento_interno_nucleo (cfg : Config) (s : Estado) : Estado × Option ℚ × Bool :=
  internoUGsLoop cfg (List.range s.ugs.length) none s

/-- remanejamento_interno as observed by the caller: none when the
invocation raises UnboundLocalError. -/
def remanejamento_interno (cfg : Config) (s : Estado) : Option Estado :=
  match remanejamento_interno_nucleo cfg s with
  | (s1, _, false) => some s1
  | (_, _, true) => none

/-- One entry of the ugs_deficitarias list of remanejamento_externo. -/
structure UGDeficitaria where
  idx : ℕ
  fonte : Option ℤ
  necessidade : ℚ
  naturezasDeficit : List ℕ
deriving DecidableEq, Repr

/-- One entry of the ugs_doadoras list of remanejamento_externo. -/
structure UGDoadora where
  idx : ℕ
  superavitTotal : ℚ
  naturezasSuper : List ℕ
deriving DecidableEq, Repr

/-- The residual-deficit filter of remanejamento_externo: originally
negative, still needing more than 0.01, fund not prohibited, code not
prohibited. -/
def ehDeficitResidual (cfg : Config) (s : Estado) (i j : ℕ) : Bool :=
  match getNat s (i, j) with
  | some n =>
    decide (n.saldo_original < 0) && decide (1/100 < n.necessidade_total.getD 0) &&
      decide (n.fonte ≠ cfg.fonteProibida) && !(natureza_eh_proibida cfg n.codigo)
  | none => false

/-- nat.get(necessidade_total, abs(saldo_atual)) at an address. -/
def necessidadeEm (s : Estado) (i j : ℕ) : ℚ :=
  match getNat s (i, j) with
  | some n => n.necessidade_total.getD |n.saldo_atual|
  | none => 0

/-- Build the ugs_deficitarias list. -/
def ugsDeficitarias (cfg : Config) (s : Estado) : List UGDeficitaria :=
  (List.range s.ugs.length).filterMap (fun i =>
    match s.ugs[i]? with
    | none => none
    | some ug =>
      if ug.fonte = cfg.fonteProibida then none
      else
        let deficits := (List.range ug.naturezas.length).filter (ehDeficitResidual cfg s i)
        if deficits.isEmpty then none
        else some { idx := i, fonte := ug.fonte,
                    necessidade := (deficits.map (necessidadeEm s i)).sum,
                    naturezasDeficit := deficits })

/-- Build the ugs_doadoras list for one deficit unit: same fund, not
prohibited, not the deficit unit itself, owning at least one eligible
surplus nature. -/
def ugsDoadorasPara (cfg : Config) (s : Estado) (fonteDef : Option ℤ)
    (codigoDef : String) : List UGDoadora :=
  (List.range s.ugs.length).filterMap (fun i =>
    match s.ugs[i]? with
    | none => none
    | some ug =>
      if ug.fonte = cfg.fonteProibida then none
      else if ug.fonte ≠ fonteDef then none
      else if ug.codigo = codigoDef then none
      else
        let sups := (List.range ug.naturezas.length).filter (ehSuperavitaria cfg s i)
        if sups.isEmpty then none
        else some { idx := i, superavitTotal := (sups.map (saldoAtualEm s i)).sum,
                    naturezasSuper := sups })

/-- Current codigo of the unit at an index (reading ug and its codigo key). -/
def ugCodigoEm (s : Estado) (i : ℕ) : String :=
  match s.ugs[i]? with
  | some ug => ug.codigo
  | none => ""

/-- The donor-unit loop of remanejamento_externo for one deficit nature;
both nature sweeps decrement the remaining need inside the loop. -/
def externoDoadoras (cfg : Config) (ugDestino : String) (aDeficit : ℕ × ℕ)
    (digitos : String) : List UGDoadora → ℚ → Estado → Estado × ℚ
  | [], nec, s => (s, nec)
  | d :: ds, nec, s =>
    if nec ≤ 1/100 then (s, nec)
    else
      let ugDoadoraCodigo := ugCodigoEm s d.idx
      let prioritarias := ordenaDesc (saldoAtualEm s d.idx)
        (d.naturezasSuper.filter (fun k => decide (digitosEm s d.idx k = digitos)))
      let secundarias := ordenaDesc (saldoAtualEm s d.idx)
        (d.naturezasSuper.filter (fun k => decide (digitosEm s d.idx k ≠ digitos)))
      match varreComDesconto cfg ugDoadoraCodigo d.idx ugDestino aDeficit "Externa (mesmos dígitos)" prioritarias nec none s with
      | (s1, nec1, _) =>
        match varreComDesconto cfg ugDoadoraCodigo d.idx ugDestino aDeficit "Externa" secundarias nec1 none s1 with
        | (s2, nec2, _) => externoDoadoras cfg ugDestino aDeficit digitos ds nec2 s2

/-- The deficit-nature loop of remanejamento_externo for one deficit unit. -/
def externoDeficits (cfg : Config) (iDef : ℕ) (ugDestino : String)
    (doadoras : List UGDoadora) : List ℕ → Estado → Estado
  | [], s => s
  | j :: js, s =>
    match getNat s (iDef, j) with
    | none => externoDeficits cfg iDef ugDestino doadoras js s
    | some natDeficit =>
      let nec := natDeficit.necessidade_total.getD |natDeficit.saldo_atual|
      if nec ≤ 1/100 then externoDeficits cfg iDef ugDestino doadoras js s
      else
        match externoDoadoras cfg ugDestino (iDef, j) natDeficit.dois_primeiros_digitos doadoras nec s with
        | (s1, nec1) =>
          externoDeficits cfg iDef ugDestino doadoras js (setNecessidade s1 (iDef, j) (max 0 nec1))

/-- The deficit-unit loop of remanejamento_externo. -/
def externoEntries (cfg : Config) : List UGDeficitaria → Estado → Estado
  | [], s => s
  | e :: es, s =>
    let ugDefCodigo := ugCodigoEm s e.idx
    let doadoras := ugsDoadorasPara cfg s e.fonte ugDefCodigo
    if doadoras.isEmpty then externoEntries cfg es s
    else
      let doadorasOrd := ordenaDesc (fun d => d.superavitTotal) doadoras
      externoEntries cfg es (externoDeficits cfg e.idx ugDefCodigo doadorasOrd e.naturezasDeficit s)

/-- remanejamento_externo. -/
def remanejamento_externo (cfg : Config) (s : Estado) : Estado :=
  let entries := ugsDeficitarias cfg s
  if entries.isEmpty then s
  else externoEntries cfg entries s

/-- The per-nature test that sets tem_negativo in validar_resultado: the
nested conditions abs(diferenca) greater than 0.01, saldo_original
negative, saldo_atual below minus 0.01. -/
def naturezaAindaNegativa (n : Natureza) : Bool :=
  decide (1/100 < |n.saldo_atual - n.saldo_original|) && decide (n.saldo_original < 0) &&
    decide (n.saldo_atual < -(1/100))

/-- validar_resultado: the pair (nenhum_saldo_negativo, somas_conferem). -/
def validar_resultado (s : Estado) : Bool × Bool :=
  (!(s.ugs.any (fun ug => ug.naturezas.any naturezaAindaNegativa)),
   decide (0 < s.remanejamentos.length))

/-- The consolidation key: Fonte, UG Origem, Natureza Origem, UG Destino,
Natureza Destino. -/
def chaveRegistro (r : Registro) : Option ℤ × String × String × String × String :=
  (r.fonte, r.ugOrigem, r.natOrigem, r.ugDestino, r.natDestino)

/-- One upsert step of the consolidation dict: existing key accumulates
Valor, new key is appended keeping the descriptive fields of this first
record. -/
def atualizaConsolidado (r : Registro) : List Registro → List Registro
  | [] => [r]
  | c :: cs =>
    if chaveRegistro c = chaveRegistro r then { c with valor := c.valor + r.valor } :: cs
    else c :: atualizaConsolidado r cs

/-- The consolidation fold of gerar_aba_remanejamento (Python dict with
insertion order preserved, rendered back to a list). -/
def consolidar (recs : List Registro) : List Registro :=
  recs.foldl (fun acc r => atualizaConsolidado r acc) []

/-- gerar_aba_remanejamento: the consolidated rows plus the unchanged
state (the method reads self.remanejamentos and mutates nothing). -/
def gerar_aba_remanejamento (s : Estado) : List Registro × Estado :=
  if s.remanejamentos.isEmpty then ([], s) else (consolidar s.remanejamentos, s)

/-- The pipeline of processar_arquivo restricted to the engine, keeping
the in-memory state: deficit identification, the internal pass, then the
external pass unless the internal pass raised (true flag), in which case
the exception propagates and the state at the raise point is kept. -/
def processar_nucleo (cfg : Config) (s : Estado) : Estado × Bool :=
  match remanejamento_interno_nucleo cfg (identificar_deficits cfg s).1 with
  | (s1, _, false) => (remanejamento_externo cfg s1, false)
  | (s1, _, true) => (s1, true)

/-- The pipeline as observed by the caller of processar_arquivo: none
signals the UnboundLocalError reachable inside remanejamento_interno. -/
def processar (cfg : Config) (s : Estado) : Option Estado :=
  match processar_nucleo cfg s with
  | (s1, false) => some s1
  | (_, true) => none

/-! Statement apparatus: definitions written from the wording of the
claims, to be compared against the source translation above. -/

/-- Modelled from the claim wording for calcular_capacidade_doacao: the
three-way min formula exactly as the claim states it. -/
def capacidadeDoacaoSpec (n : Natureza) : ℚ :=
  if n.saldo_atual ≤ 0 then 0
  else max 0 (min (max 0 ((n.saldo_original - (1/5) * n.saldo_original) - (n.saldo_original - n.saldo_atual)))
    (min ((2/5) * n.saldo_original) (n.saldo_atual - (1/5) * n.saldo_original)))

/-- Sum of the Valor amounts of the records having the given unit and
nature codes as destination. -/
def somaRecebida (recs : List Registro) (ug nat : String) : ℚ :=
  ((recs.filter (fun r => decide (r.ugDestino = ug) && decide (r.natDestino = nat))).map Registro.valor).sum

/-- Sum of the Valor amounts of the records having the given unit and
nature codes as source. -/
def somaDoada (recs : List Registro) (ug nat : String) : ℚ :=
  ((recs.filter (fun r => decide (r.ugOrigem = ug) && decide (r.natOrigem = nat))).map Registro.valor).sum

/-- Sum of the Valor amounts of the records carrying a given
consolidation key. -/
def somaPorChave (k : Option ℤ × String × String × String × String) (l : List Registro) : ℚ :=
  ((l.filter (fun r => decide (chaveRegistro r = k))).map Registro.valor).sum

/-- The relation between a list of processed records and the consolidation
accumulator: bounded size, pairwise distinct keys, per-key sums with
descriptive fields from the first record of each key, and coverage of
every processed key. -/
def InvCons (ps acc : List Registro) : Prop :=
  acc.length ≤ ps.length ∧
  (acc.map chaveRegistro).Nodup ∧
  (∀ c ∈ acc, c.valor = somaPorChave (chaveRegistro c) ps ∧
    ∃ r0, ps.find? (fun r => decide (chaveRegistro r = chaveRegistro c)) = some r0 ∧
      c.tipo = r0.tipo ∧ c.nomeNatOrigem = r0.nomeNatOrigem ∧ c.nomeNatDestino = r0.nomeNatDestino) ∧
  (∀ r ∈ ps, chaveRegistro r ∈ acc.map chaveRegistro)

/-- One call to registrar_transferencia, as issued by the passes. -/
structure Chamada where
  ugOrigem : String
  origem : ℕ × ℕ
  ugDestino : String
  destino : ℕ × ℕ
  valor : ℚ
  tipo : String
deriving DecidableEq, Repr

/-- Execute one call. -/
def aplicarChamada (cfg : Config) (c : Chamada) (s : Estado) : Estado :=
  registrar_transferencia cfg c.ugOrigem c.origem c.ugDestino c.destino c.valor c.tipo s

/-- Execute a sequence of calls in order. -/
def aplicarChamadas (cfg : Config) : List Chamada → Estado → Estado
  | [], s => s
  | c :: cs, s => aplicarChamadas cfg cs (aplicarChamada cfg c s)

/-- Whether a call passes every validation of registrar_transferencia and
therefore commits. -/
def comete (cfg : Config) (c : Chamada) (s : Estado) : Bool :=
  match getNat s c.origem, getNat s c.destino with
  | some nO, some nD =>
    !decide (nO.saldo_original ≤ 0) && !decide (0 ≤ nD.saldo_original) &&
      !decide (nO.saldo_atual < c.valor) &&
      !decide (nO.saldo_atual - c.valor < nO.saldo_original * PERCENTUAL_RESERVA_MINIMA) &&
      !(natureza_eh_proibida cfg nO.codigo) && !(natureza_eh_proibida cfg nD.codigo)
  | _, _ => false

/-- Net amount received minus donated by the nature at an address over a
sequence of calls, counting only the calls that commit and counting each
with its raw (unrounded) amount. -/
def variacao (cfg : Config) : List Chamada → Estado → ℕ × ℕ → ℚ
  | [], _, _ => 0
  | c :: cs, s, a =>
    (if comete cfg c s then
      (if a = c.destino then c.valor else 0) - (if a = c.origem then c.valor else 0)
     else 0) + variacao cfg cs (aplicarChamada cfg c s) a

/-- The source addresses of the calls that commit. -/
def cometidasOrigens (cfg : Config) : List Chamada → Estado → List (ℕ × ℕ)
  | [], _ => []
  | c :: cs, s =>
    (if comete cfg c s then [c.origem] else []) ++ cometidasOrigens cfg cs (aplicarChamada cfg c s)

/-- The destination addresses of the calls that commit. -/
def cometidasDestinos (cfg : Config) : List Chamada → Estado → List (ℕ × ℕ)
  | [], _ => []
  | c :: cs, s =>
    (if comete cfg c s then [c.destino] else []) ++ cometidasDestinos cfg cs (aplicarChamada cfg c s)

/-! Concrete inputs used by counterexamples and witnesses. -/

/-- Build a nature row the way identificar_estrutura does: both balances
equal to the parsed value, digits taken from the code. -/
def mkNat (codigo nome : String) (saldo : ℚ) (fonte : Option ℤ) : Natureza :=
  { codigo := codigo, nome := nome, saldo_original := saldo, saldo_atual := saldo,
    dois_primeiros_digitos := String.mk (codigo.data.take 2), fonte := fonte,
    necessidade_total := none }

/-- A configuration with fund 761 prohibited and no prohibited natures. -/
def cfgPadrao : Config := { fonteProibida := some 761, naturezasProibidas := [] }

/-- One unit holding a single deficit nature and no donor at all. -/
def estSoDeficit : Estado :=
  { ugs := [ { codigo := "450201", nome := "TESTE", fonte := some 500, saldo_total := -100,
               naturezas := [ mkNat "339018" "Servicos" (-100) (some 500) ] } ],
    remanejamentos := [] }

/-- One unit with a deficit of 100 and two other-prefix donors whose
capacity is 80 each. -/
def estDoisDoadores : Estado :=
  { ugs := [ { codigo := "100000", nome := "TESTE", fonte := some 500, saldo_total := 300,
               naturezas := [ mkNat "339018" "Servicos" (-100) (some 500),
                              mkNat "319011" "Pagamento" 200 (some 500),
                              mkNat "319013" "Obrigacoes" 200 (some 500) ] } ],
    remanejamentos := [] }

/-- One unit with a deficit of 5 and a single donor whose capacity 0.008
falls below the 0.01 threshold of both sweeps. -/
def estDoadorMinusculo : Estado :=
  { ugs := [ { codigo := "100000", nome := "TESTE", fonte := some 500, saldo_total := 0,
               naturezas := [ mkNat "339018" "Servicos" (-5) (some 500),
                              mkNat "319011" "Pagamento" (1/50) (some 500) ] } ],
    remanejamentos := [] }

/-- One unit with a deficit of 100.001 covered by a single donor, so the
committed amount is not a multiple of 0.01. -/
def estValorQuebrado : Estado :=
  { ugs := [ { codigo := "450201", nome := "ALPHA", fonte := some 500, saldo_total := 0,
               naturezas := [ mkNat "339018" "Servicos" (-(100001/1000)) (some 500),
                              mkNat "339030" "Material" 1000 (some 500) ] } ],
    remanejamentos := [] }

/-- The nature with negative original balance and positive current balance
used against the 40 percent bound. -/
def natInvertida : Natureza :=
  { codigo := "339018", nome := "Servicos", saldo_original := -10, saldo_atual := 5,
    dois_primeiros_digitos := "33", fonte := some 500, necessidade_total := none }

/-- A configuration with a prohibited fund and one prohibited nature code. -/
def cfgComProibicoes : Config := { fonteProibida := some 761, naturezasProibidas := ["339091"] }

/-- One unit where a donor of 1000 fully covers a deficit of 200 in a
single transfer. -/
def estCoberturaUnica : Estado :=
  { ugs := [ { codigo := "450201", nome := "ALPHA", fonte := some 500, saldo_total := 800,
               naturezas := [ mkNat "319011" "Pagamento" 1000 (some 500),
                              mkNat "339018" "Servicos" (-200) (some 500) ] } ],
    remanejamentos := [] }

/-- The record committed by the run on estCoberturaUnica. -/
def registroCoberturaUnica : Registro :=
  { tipo := "Interna (única)", fonte := some 500, ugOrigem := "450201",
    natOrigem := "319011", nomeNatOrigem := "Pagamento", ugDestino := "450201",
    natDestino := "339018", nomeNatDestino := "Servicos", valor := 200 }

/-- A configuration with no prohibited fund. -/
def cfgSemFonteProibida : Config := { fonteProibida := none, naturezasProibidas := [] }

/-- The unit without a resolved fund, holding one fund-less nature and one
nature that carries its own fund 500. -/
def ugSemFonte : UG :=
  { codigo := "450202", nome := "BETA", fonte := none, saldo_total := 250,
    naturezas := [ mkNat "339030" "Material" (-50) none,
                   mkNat "319013" "Obrigacoes" 300 (some 500) ] }

/-- Two units: the first keeps a residual deficit after the internal pass,
so the external pass looks for fund-500 donors, and the second is the
fund-less unit above, whose fund-500 surplus nature must never be
touched. -/
def estComUGSemFonte : Estado :=
  { ugs := [ { codigo := "450201", nome := "ALPHA", fonte := some 500, saldo_total := 20,
               naturezas := [ mkNat "319011" "Pagamento" 220 (some 500),
                              mkNat "339018" "Servicos" (-200) (some 500) ] },
             ugSemFonte ],
    remanejamentos := [] }

/-- A single committing call on estCoberturaUnica, for the witnesses. -/
def chamadaUnica : Chamada :=
  { ugOrigem := "450201", origem := (0, 0), ugDestino := "450201", destino := (0, 1),
    valor := 50, tipo := "Interna" }

/-- The disjunction of the six early-return conditions of
registrar_transferencia, as listed by the claim. -/
def Rejeita (cfg : Config) (nO nD : Natureza) (valor : ℚ) : Prop :=
  nO.saldo_original ≤ 0 ∨ 0 ≤ nD.saldo_original ∨ nO.saldo_atual < valor ∨
  nO.saldo_atual - valor < nO.saldo_original * PERCENTUAL_RESERVA_MINIMA ∨
  natureza_eh_proibida cfg nO.codigo = true ∨ natureza_eh_proibida cfg nD.codigo = true

instance (cfg : Config) (nO nD : Natureza) (valor : ℚ) : Decidable (Rejeita cfg nO nD valor) := by
  unfold Rejeita; infer_instance

/-- The fields of a nature that no operation of the engine ever rewrites:
codigo, nome, digit prefix, fund, and saldo_original. -/
def natEstavel (n : Natureza) : String × String × String × Option ℤ × ℚ :=
  (n.codigo, n.nome, n.dois_primeiros_digitos, n.fonte, n.saldo_original)

/-- The fields of a unit that no operation ever rewrites, including the
number of its natures. -/
def ugEstavel (u : UG) : String × String × Option ℤ × ℚ × ℕ :=
  (u.codigo, u.nome, u.fonte, u.saldo_total, u.naturezas.length)

/-- Two states with the same layout and the same stable fields everywhere. -/
def EstruturaEq (s t : Estado) : Prop :=
  (∀ i : ℕ, t.ugs[i]?.map ugEstavel = s.ugs[i]?.map ugEstavel) ∧
  (∀ a : ℕ × ℕ, (getNat t a).map natEstavel = (getNat s a).map natEstavel)

/-- A transfer record compatible with the exclusion rules: neither code is
prohibited and the record was built from two live natures, addressable in
the state, such that both the natures and their owning units carry funds
different from the prohibited fund. -/
def RecOK (cfg : Config) (s : Estado) (r : Registro) : Prop :=
  natureza_eh_proibida cfg r.natOrigem = false ∧
  natureza_eh_proibida cfg r.natDestino = false ∧
  ∃ aO nO aD nD, getNat s aO = some nO ∧ getNat s aD = some nD ∧
    nO.codigo = r.natOrigem ∧ nD.codigo = r.natDestino ∧
    (∃ uO, s.ugs[aO.1]? = some uO ∧ uO.codigo = r.ugOrigem ∧ uO.fonte ≠ cfg.fonteProibida) ∧
    (∃ uD, s.ugs[aD.1]? = some uD ∧ uD.codigo = r.ugDestino ∧ uD.fonte ≠ cfg.fonteProibida) ∧
    nO.fonte ≠ cfg.fonteProibida ∧ nD.fonte ≠ cfg.fonteProibida

/-- The invariant carried through every stage of the run: the layout and
stable fields are preserved, records are only appended and each new record
satisfies RecOK, a nature on the prohibited fund is left completely
untouched, and a nature belonging to a unit on the prohibited fund is left
completely untouched as well. -/
def PassInv (cfg : Config) (s t : Estado) : Prop :=
  EstruturaEq s t ∧
  (∃ novos, t.remanejamentos = s.remanejamentos ++ novos ∧ ∀ r ∈ novos, RecOK cfg t r) ∧
  (∀ a : ℕ × ℕ, ∀ n, getNat s a = some n → n.fonte = cfg.fonteProibida → getNat t a = some n) ∧
  (∀ a : ℕ × ℕ, ∀ n u, getNat s a = some n → s.ugs[a.1]? = some u →
    u.fonte = cfg.fonteProibida → getNat t a = some n)

/-- The nature at an address, when live, is not on the prohibited fund. -/
def FonteOkCond (cfg : Config) (s : Estado) (a : ℕ × ℕ) : Prop :=
  ∀ n, getNat s a = some n → n.fonte ≠ cfg.fonteProibida

/-- The unit at an index, when live, carries the given code. -/
def UGCodigoCond (s : Estado) (i : ℕ) (c : String) : Prop :=
  ∀ u, s.ugs[i]? = some u → u.codigo = c

/-- The unit at an index, when live, is not on the prohibited fund. -/
def UGFonteCond (cfg : Config) (s : Estado) (i : ℕ) : Prop :=
  ∀ u, s.ugs[i]? = some u → u.fonte ≠ cfg.fonteProibida

/-! Theorems.  The Batteries rational operations are irreducible by
default, which only hides them from tactic-level evaluation; they are
restored to normal visibility so that decide can evaluate concrete runs. -/

attribute [local semireducible] Rat.mul Rat.add Rat.sub Rat.inv

lemma listModify_length (f : α → α) (i : ℕ) (l : List α) :
    (listModify f i l).length = l.length := by
  induction l generalizing i with
  | nil => cases i <;> rfl
  | cons x xs ih => cases i <;> simp [listModify, ih]

lemma listModify_getElem? (f : α → α) (i j : ℕ) (l : List α) :
    (listModify f i l)[j]? = if j = i then l[j]?.map f else l[j]? := by
  induction l generalizing i j with
  | nil => cases i <;> simp [listModify]
  | cons x xs ih =>
    cases i with
    | zero => cases j <;> simp [listModify]
    | succ i =>
      cases j with
      | zero => simp [listModify]
      | succ j => simpa [listModify] using ih i j

lemma modifyNat_remanejamentos (s : Estado) (a : ℕ × ℕ) (f : Natureza → Natureza) :
    (modifyNat s a f).remanejamentos = s.remanejamentos := rfl

lemma getNat_modifyNat (s : Estado) (a b : ℕ × ℕ) (f : Natureza → Natureza) :
    getNat (modifyNat s a f) b = if b = a then (getNat s a).map f else getNat s b := by
  obtain ⟨a1, a2⟩ := a
  obtain ⟨b1, b2⟩ := b
  simp only [getNat, modifyNat, listModify_getElem?, Prod.mk.injEq]
  by_cases h1 : b1 = a1
  · subst h1
    cases hg : s.ugs[b1]? with
    | none => simp [hg]
    | some ug =>
      simp only [hg, if_pos rfl, Option.map_some']
      by_cases h2 : b2 = a2
      · subst h2; simp [listModify_getElem?]
      · simp [listModify_getElem?, h2]
  · rw [if_neg h1, if_neg (fun hx : b1 = a1 ∧ b2 = a2 => h1 hx.1)]

lemma getNat_setRemanejamentos (s : Estado) (L : List Registro) (b : ℕ × ℕ) :
    getNat { s with remanejamentos := L } b = getNat s b := rfl


/-- Case analysis of registrar_transferencia: unchanged state on any
rejection condition, otherwise one appended record and the two balance
updates. -/
lemma registrar_casos (cfg : Config) (ugO : String) (aO : ℕ × ℕ)
    (ugD : String) (aD : ℕ × ℕ) (v : ℚ) (tipo : String) (s : Estado) (nO nD : Natureza)
    (hO : getNat s aO = some nO) (hD : getNat s aD = some nD) :
    (Rejeita cfg nO nD v → registrar_transferencia cfg ugO aO ugD aD v tipo s = s) ∧
    (¬ Rejeita cfg nO nD v →
      (registrar_transferencia cfg ugO aO ugD aD v tipo s).remanejamentos
          = s.remanejamentos ++ [montarRegistro s ugO ugD tipo nO nD v] ∧
      (montarRegistro s ugO ugD tipo nO nD v).valor = round2 v ∧
      getNat (registrar_transferencia cfg ugO aO ugD aD v tipo s) aO
          = some { nO with saldo_atual := nO.saldo_atual - v } ∧
      getNat (registrar_transferencia cfg ugO aO ugD aD v tipo s) aD
          = some { nD with saldo_atual := nD.saldo_atual + v } ∧
      ∀ b, b ≠ aO → b ≠ aD →
        getNat (registrar_transferencia cfg ugO aO ugD aD v tipo s) b = getNat s b) := by
  have hne : ¬ Rejeita cfg nO nD v → aO ≠ aD := by
    intro hn he
    subst he
    rw [hO] at hD
    injection hD with hD
    subst hD
    simp only [Rejeita, not_or] at hn
    exact hn.1 (le_of_lt (lt_of_not_le hn.2.1))
  constructor
  · intro hrej
    rw [registrar_transferencia, hO, hD]
    dsimp only
    split_ifs with h1 h2 h3 h4 h5 h6
    any_goals rfl
    rcases hrej with h | h | h | h | h | h <;> contradiction
  · intro hn
    have hne := hne hn
    simp only [Rejeita, not_or] at hn
    obtain ⟨h1, h2, h3, h4, h5, h6⟩ := hn
    rw [registrar_transferencia, hO, hD]
    dsimp only
    rw [if_neg h1, if_neg h2, if_neg h3, if_neg h4, if_neg h5, if_neg h6]
    refine ⟨rfl, rfl, ?_, ?_, ?_⟩
    · rw [getNat_modifyNat, if_neg hne, getNat_modifyNat, if_pos rfl,
        getNat_setRemanejamentos, hO]
      rfl
    · rw [getNat_modifyNat, if_pos rfl, getNat_modifyNat, if_neg (fun hx => hne hx.symm),
        getNat_setRemanejamentos, hD]
      rfl
    · intro b hbO hbD
      rw [getNat_modifyNat, if_neg hbD, getNat_modifyNat, if_neg hbO,
        getNat_setRemanejamentos]


/-- C1: with both addresses resolving to natures, registrar_transferencia
returns the state unchanged when any rejection condition holds (source not
originally positive, destination not originally negative, amount above the
source balance, reserve breached, or either code prohibited); otherwise it
appends exactly one record whose Valor is the amount rounded to two
decimals, decreases the source saldo_atual by the amount, increases the
destination saldo_atual by the amount, and touches no other nature. -/
theorem registrar_transferencia_spec (cfg : Config) (ugO : String) (aO : ℕ × ℕ)
    (ugD : String) (aD : ℕ × ℕ) (v : ℚ) (tipo : String) (s : Estado) (nO nD : Natureza)
    (hO : getNat s aO = some nO) (hD : getNat s aD = some nD) :
    (Rejeita cfg nO nD v → registrar_transferencia cfg ugO aO ugD aD v tipo s = s) ∧
    (¬ Rejeita cfg nO nD v →
      (registrar_transferencia cfg ugO aO ugD aD v tipo s).remanejamentos
          = s.remanejamentos ++ [montarRegistro s ugO ugD tipo nO nD v] ∧
      (montarRegistro s ugO ugD tipo nO nD v).valor = round2 v ∧
      getNat (registrar_transferencia cfg ugO aO ugD aD v tipo s) aO
          = some { nO with saldo_atual := nO.saldo_atual - v } ∧
      getNat (registrar_transferencia cfg ugO aO ugD aD v tipo s) aD
          = some { nD with saldo_atual := nD.saldo_atual + v } ∧
      ∀ b, b ≠ aO → b ≠ aD →
        getNat (registrar_transferencia cfg ugO aO ugD aD v tipo s) b = getNat s b) :=
  registrar_casos cfg ugO aO ugD aD v tipo s nO nD hO hD

/-- Witness for C1: a concrete committing call. -/
theorem registrar_transferencia_spec_witness :
    (registrar_transferencia cfgComProibicoes "450201" (0, 0) "450201" (0, 1) 50 "Interna" estCoberturaUnica).remanejamentos
      = [montarRegistro estCoberturaUnica "450201" "450201" "Interna"
          (mkNat "319011" "Pagamento" 1000 (some 500)) (mkNat "339018" "Servicos" (-200) (some 500)) 50] := by
  have h := (registrar_transferencia_spec cfgComProibicoes "450201" (0, 0) "450201" (0, 1) 50
    "Interna" estCoberturaUnica (mkNat "319011" "Pagamento" 1000 (some 500))
    (mkNat "339018" "Servicos" (-200) (some 500)) (by decide) (by decide)).2 (by decide)
  simpa using h.1


/-- C4 (amended): calcular_capacidade_doacao returns 0 when saldo_atual is
not positive and otherwise the three-way min formula of the claim; the
result is always nonnegative and never exceeds max 0 (40 percent of
saldo_original) — the unqualified 40 percent bound of the claim fails when
saldo_original is negative. -/
theorem calcular_capacidade_doacao_spec (n : Natureza) :
    calcular_capacidade_doacao n = capacidadeDoacaoSpec n ∧
    0 ≤ calcular_capacidade_doacao n ∧
    calcular_capacidade_doacao n ≤ max 0 (PERCENTUAL_DOACAO_MAXIMA_POR_VEZ * n.saldo_original) := by
  unfold calcular_capacidade_doacao capacidadeDoacaoSpec PERCENTUAL_RESERVA_MINIMA PERCENTUAL_DOACAO_MAXIMA_POR_VEZ
  split_ifs with h
  · exact ⟨rfl, le_refl 0, le_max_left 0 _⟩
  · dsimp only
    refine ⟨?_, le_max_left 0 _, ?_⟩
    · rw [min_assoc, mul_comm n.saldo_original (1/5), mul_comm n.saldo_original (2/5)]
    · exact max_le_max (le_refl 0) (le_trans (min_le_left _ _) (le_trans (min_le_right _ _) (le_of_eq (mul_comm _ _))))

/-- C4 (counterexample): for a nature with saldo_original = -10 and
saldo_atual = 5 the capacity is 0, which strictly exceeds 40 percent of
saldo_original (-4), refuting the claim that the result never exceeds 40
percent of saldo_original. -/
theorem capacidade_excede_40pct :
    ¬ (calcular_capacidade_doacao natInvertida ≤ PERCENTUAL_DOACAO_MAXIMA_POR_VEZ * natInvertida.saldo_original) := by
  decide

/-- Characterisation of validar_resultado as implemented: the
nenhum_saldo_negativo flag passes if and only if no nature has
saldo_original negative, saldo_atual below -0.01 AND a balance that
changed by more than 0.01 — natures whose balance never changed are not
inspected; the somas_conferem flag passes if and only if at least one
transfer record exists. -/
theorem validar_resultado_caracterizacao (s : Estado) :
    ((validar_resultado s).1 = true ↔ ∀ ug ∈ s.ugs, ∀ n ∈ ug.naturezas,
        ¬(1/100 < |n.saldo_atual - n.saldo_original| ∧ n.saldo_original < 0 ∧ n.saldo_atual < -(1/100))) ∧
    ((validar_resultado s).2 = true ↔ s.remanejamentos ≠ []) := by
  constructor
  · simp [validar_resultado, naturezaAindaNegativa, List.any_eq_true, Bool.and_eq_true,
      decide_eq_true_eq, not_and, and_imp]
  · simp [validar_resultado, List.length_pos]

/-- C2 (code bug): after a full run on a sheet with a single deficit
nature and no donor, the deficit nature still holds saldo_original < 0 and
saldo_atual < -0.01 yet nenhum_saldo_negativo reports true, because its
balance never changed and the validator only inspects changed natures. -/
theorem validar_resultado_contraexemplo :
    ((processar cfgPadrao estSoDeficit).map (fun t => ((validar_resultado t).1,
      (getNat t (0, 0)).map (fun n => decide (n.saldo_original < 0) && decide (n.saldo_atual < -(1/100))))))
    = some (true, some true) := by
  decide

/-- C3 (code bug): the internal pass on a deficit of 100 with two
other-prefix donors of capacity 80 each commits two transfers of 80,
because the statement that decrements the remaining need sits after the
second sweep instead of inside it; the deficit nature ends at +60 and its
stored residual need is 20. -/
theorem interno_varredura_secundaria_bug :
    ((remanejamento_interno cfgPadrao (identificar_deficits cfgPadrao estDoisDoadores).1).map
      (fun t => (t.remanejamentos.map Registro.valor,
        (getNat t (0, 0)).map Natureza.saldo_atual,
        (getNat t (0, 0)).map Natureza.necessidade_total)))
    = some ([80, 80], some 60, some (some 20)) := by
  decide

/-- C8 (code bug): on a parseable sheet with one deficit of 5 and one
donor of 0.02 (capacity 0.008, below the 0.01 threshold of both sweeps)
the internal pass reads the never-assigned valor_transferir variable and
aborts: the model returns none exactly on the UnboundLocalError path. -/
theorem interno_excecao_nao_tratada :
    remanejamento_interno cfgPadrao (identificar_deficits cfgPadrao estDoadorMinusculo).1 = none := by
  decide


lemma chave_atualiza_self (c r : Registro) :
    chaveRegistro { c with valor := c.valor + r.valor } = chaveRegistro c := rfl

lemma atualiza_length (r : Registro) (acc : List Registro) :
    (atualizaConsolidado r acc).length ≤ acc.length + 1 := by
  induction acc with
  | nil => simp [atualizaConsolidado]
  | cons c cs ih =>
    rw [atualizaConsolidado]
    by_cases h : chaveRegistro c = chaveRegistro r
    · rw [if_pos h]; simp
    · rw [if_neg h]
      simpa using Nat.add_le_add_right ih 1

lemma atualiza_of_not_mem (r : Registro) (acc : List Registro)
    (h : chaveRegistro r ∉ acc.map chaveRegistro) :
    atualizaConsolidado r acc = acc ++ [r] := by
  induction acc with
  | nil => rfl
  | cons c cs ih =>
    simp only [List.map_cons, List.mem_cons, not_or] at h
    rw [atualizaConsolidado, if_neg (fun he => h.1 he.symm), ih h.2]
    rfl

lemma atualiza_map_chave_of_mem (r : Registro) (acc : List Registro)
    (h : chaveRegistro r ∈ acc.map chaveRegistro) :
    (atualizaConsolidado r acc).map chaveRegistro = acc.map chaveRegistro := by
  induction acc with
  | nil => simp at h
  | cons c cs ih =>
    by_cases he : chaveRegistro c = chaveRegistro r
    · rw [atualizaConsolidado, if_pos he]
      simp [chave_atualiza_self]
    · rw [atualizaConsolidado, if_neg he]
      simp only [List.map_cons, List.mem_cons, not_or] at h
      rcases h with h | h
      · exact absurd h.symm he
      · simp [ih h]

lemma atualiza_mem (r : Registro) (acc : List Registro)
    (hnd : (acc.map chaveRegistro).Nodup)
    (c : Registro) (hc : c ∈ atualizaConsolidado r acc) :
    (c ∈ acc ∧ chaveRegistro c ≠ chaveRegistro r) ∨
    (∃ c0 ∈ acc, chaveRegistro c0 = chaveRegistro r ∧ c = { c0 with valor := c0.valor + r.valor }) ∨
    (c = r ∧ chaveRegistro r ∉ acc.map chaveRegistro) := by
  induction acc with
  | nil =>
    simp [atualizaConsolidado] at hc
    exact Or.inr (Or.inr ⟨hc, by simp⟩)
  | cons c1 cs ih =>
    simp only [List.map_cons, List.nodup_cons] at hnd
    by_cases he : chaveRegistro c1 = chaveRegistro r
    · rw [atualizaConsolidado, if_pos he] at hc
      rcases List.mem_cons.mp hc with h | h
      · exact Or.inr (Or.inl ⟨c1, List.mem_cons_self _ _, he, h⟩)
      · left
        refine ⟨List.mem_cons_of_mem _ h, ?_⟩
        intro hk
        exact hnd.1 (he ▸ hk ▸ List.mem_map_of_mem chaveRegistro h)
    · rw [atualizaConsolidado, if_neg he] at hc
      rcases List.mem_cons.mp hc with h | h
      · subst h
        exact Or.inl ⟨List.mem_cons_self _ _, he⟩
      · rcases ih hnd.2 h with h1 | h1 | h1
        · exact Or.inl ⟨List.mem_cons_of_mem _ h1.1, h1.2⟩
        · obtain ⟨c0, hc0, hk, hcv⟩ := h1
          exact Or.inr (Or.inl ⟨c0, List.mem_cons_of_mem _ hc0, hk, hcv⟩)
        · refine Or.inr (Or.inr ⟨h1.1, ?_⟩)
          simp only [List.map_cons, List.mem_cons, not_or]
          exact ⟨fun hx => he hx.symm, h1.2⟩

lemma somaPorChave_append (k) (l : List Registro) (r : Registro) :
    somaPorChave k (l ++ [r]) = somaPorChave k l + (if chaveRegistro r = k then r.valor else 0) := by
  by_cases h : chaveRegistro r = k <;>
    simp [somaPorChave, List.filter_append, h]

lemma somaPorChave_eq_zero (k) (l : List Registro) (h : ∀ r ∈ l, chaveRegistro r ≠ k) :
    somaPorChave k l = 0 := by
  rw [somaPorChave, List.filter_eq_nil_iff.mpr, List.map_nil, List.sum_nil]
  intro r hr
  simpa using h r hr

lemma invCons_step (ps acc : List Registro) (r : Registro) (h : InvCons ps acc) :
    InvCons (ps ++ [r]) (atualizaConsolidado r acc) := by
  obtain ⟨hlen, hnd, hmem, hcompl⟩ := h
  by_cases hk : chaveRegistro r ∈ acc.map chaveRegistro
  · refine ⟨?_, ?_, ?_, ?_⟩
    · calc (atualizaConsolidado r acc).length ≤ acc.length + 1 := atualiza_length r acc
        _ ≤ ps.length + 1 := by omega
        _ = (ps ++ [r]).length := by simp
    · rw [atualiza_map_chave_of_mem r acc hk]; exact hnd
    · intro c hc
      rcases atualiza_mem r acc hnd c hc with ⟨hcm, hne⟩ | ⟨c0, hc0, hkey, hval⟩ | ⟨rfl, hnm⟩
      · obtain ⟨hv, r0, hf, ht⟩ := hmem c hcm
        refine ⟨?_, r0, ?_, ht⟩
        · rw [somaPorChave_append, if_neg (fun hx => hne hx.symm), hv, add_zero]
        · rw [List.find?_append, hf]; rfl
      · obtain ⟨hv, r0, hf, ht⟩ := hmem c0 hc0
        subst hval
        refine ⟨?_, r0, ?_, ?_⟩
        · rw [chave_atualiza_self, somaPorChave_append, if_pos hkey.symm]
          dsimp only
          rw [hv]
        · simp only [chave_atualiza_self]
          rw [List.find?_append, hf]; rfl
        · exact ht
      · exact (hnm hk).elim
    · intro p hp
      rw [atualiza_map_chave_of_mem r acc hk]
      rcases List.mem_append.mp hp with h | h
      · exact hcompl p h
      · simp only [List.mem_singleton] at h; subst h; exact hk
  · rw [atualiza_of_not_mem r acc hk]
    have hznone : ∀ p ∈ ps, chaveRegistro p ≠ chaveRegistro r :=
      fun p hp he => hk (he ▸ hcompl p hp)
    refine ⟨by simpa using Nat.add_le_add_right hlen 1, ?_, ?_, ?_⟩
    · simp only [List.map_append, List.map_cons, List.map_nil]
      rw [List.nodup_append]
      exact ⟨hnd, List.nodup_singleton _, fun a ha => by
        simp only [List.mem_singleton]
        exact fun he => hk (he ▸ ha)⟩
    · intro c hc
      rcases List.mem_append.mp hc with hcm | hcm
      · have hne : chaveRegistro c ≠ chaveRegistro r :=
          fun he => hk (he ▸ List.mem_map_of_mem chaveRegistro hcm)
        obtain ⟨hv, r0, hf, ht⟩ := hmem c hcm
        refine ⟨?_, r0, ?_, ht⟩
        · rw [somaPorChave_append, if_neg (fun hx => hne hx.symm), hv, add_zero]
        · rw [List.find?_append, hf]; rfl
      · simp only [List.mem_singleton] at hcm; subst hcm
        refine ⟨?_, c, ?_, rfl, rfl, rfl⟩
        · rw [somaPorChave_append, if_pos rfl, somaPorChave_eq_zero _ _ hznone, zero_add]
        · rw [List.find?_append, List.find?_eq_none.mpr (fun x hx => by
            simpa using hznone x hx), Option.none_or]
          simp [List.find?]
    · intro p hp
      simp only [List.map_append, List.map_cons, List.map_nil]
      rcases List.mem_append.mp hp with h | h
      · exact List.mem_append_left _ (hcompl p h)
      · simp only [List.mem_singleton] at h; subst h
        exact List.mem_append_right _ (List.mem_singleton_self _)

lemma consolidar_inv : ∀ (recs ps acc : List Registro), InvCons ps acc →
    InvCons (ps ++ recs) (recs.foldl (fun a r => atualizaConsolidado r a) acc) := by
  intro recs
  induction recs with
  | nil => intro ps acc h; simpa using h
  | cons r rs ih =>
    intro ps acc h
    have h1 := invCons_step ps acc r h
    have h2 := ih (ps ++ [r]) (atualizaConsolidado r acc) h1
    simpa using h2

lemma invCons_consolidar (recs : List Registro) : InvCons recs (consolidar recs) := by
  have h := consolidar_inv recs [] [] ⟨by simp, by simp, by simp, by simp⟩
  simpa [consolidar] using h

/-- C6: consolidation groups the committed records by the key (Fonte, UG
Origem, Natureza Origem, UG Destino, Natureza Destino): it produces at
most as many rows as committed records, rows carry pairwise distinct keys
and every committed key appears, each row has Valor equal to the sum of
the Valor of all committed records with its key and the Tipo and
nature-name fields of the first committed record with its key; the state
(in particular every saldo_atual) is returned unchanged. -/
theorem consolidacao_spec (s : Estado) :
    (gerar_aba_remanejamento s).1.length ≤ s.remanejamentos.length ∧
    (∀ c ∈ (gerar_aba_remanejamento s).1,
       c.valor = somaPorChave (chaveRegistro c) s.remanejamentos ∧
       ∃ r0, s.remanejamentos.find? (fun r => decide (chaveRegistro r = chaveRegistro c)) = some r0 ∧
         c.tipo = r0.tipo ∧ c.nomeNatOrigem = r0.nomeNatOrigem ∧ c.nomeNatDestino = r0.nomeNatDestino) ∧
    ((gerar_aba_remanejamento s).1.map chaveRegistro).Nodup ∧
    (∀ r ∈ s.remanejamentos, chaveRegistro r ∈ (gerar_aba_remanejamento s).1.map chaveRegistro) ∧
    (gerar_aba_remanejamento s).2 = s := by
  unfold gerar_aba_remanejamento
  split_ifs with h
  · rw [List.isEmpty_iff] at h
    rw [h]
    simp
  · obtain ⟨h1, h2, h3, h4⟩ := invCons_consolidar s.remanejamentos
    exact ⟨h1, h3, h2, h4, rfl⟩

lemma comete_false_fix (cfg : Config) (c : Chamada) (s : Estado)
    (h : comete cfg c s = false) : aplicarChamada cfg c s = s := by
  rw [aplicarChamada, registrar_transferencia]
  cases hO : getNat s c.origem with
  | none => rfl
  | some nO =>
    cases hD : getNat s c.destino with
    | none => rfl
    | some nD =>
      rw [comete, hO, hD] at h
      dsimp only
      split_ifs with h1 h2 h3 h4 h5 h6
      any_goals rfl
      simp only [Bool.and_eq_false_iff, Bool.not_eq_false', decide_eq_true_eq,
        Bool.not_eq_false] at h
      rcases h with ((((h | h) | h) | h) | h) | h <;> simp_all

lemma delta_zero (o : Option Natureza) :
    o.map (fun n => { n with saldo_atual := n.saldo_atual + 0 }) = o := by
  cases o <;> simp

lemma aplicarChamada_getNat_eq (cfg : Config) (c : Chamada) (s : Estado) (a : ℕ × ℕ) :
    getNat (aplicarChamada cfg c s) a
      = (getNat s a).map (fun n => { n with saldo_atual := n.saldo_atual +
          (if comete cfg c s = true then
            (if a = c.destino then c.valor else 0) - (if a = c.origem then c.valor else 0)
           else 0) }) := by
  by_cases hcom : comete cfg c s = true
  · rw [if_pos hcom]
    rw [comete] at hcom
    cases hO : getNat s c.origem with
    | none => rw [hO] at hcom; simp at hcom
    | some nO =>
      cases hD : getNat s c.destino with
      | none => rw [hO, hD] at hcom; simp at hcom
      | some nD =>
        rw [hO, hD] at hcom
        simp only [Bool.and_eq_true, Bool.not_eq_true', decide_eq_false_iff_not,
          Bool.not_eq_true] at hcom
        obtain ⟨⟨⟨⟨⟨h1, h2⟩, h3⟩, h4⟩, h5⟩, h6⟩ := hcom
        have hne : c.origem ≠ c.destino := by
          intro he
          rw [he, hD] at hO
          injection hO with hO
          subst hO
          exact h1 (le_of_lt (lt_of_not_le h2))
        rw [aplicarChamada, registrar_transferencia, hO, hD]
        dsimp only
        rw [if_neg h1, if_neg h2, if_neg h3, if_neg h4, if_neg (by simpa using h5),
          if_neg (by simpa using h6)]
        simp only [getNat_modifyNat, getNat_setRemanejamentos]
        by_cases hd : a = c.destino
        · subst hd
          rw [if_pos rfl, if_pos rfl, if_neg (fun hx => hne hx.symm),
            if_neg (fun hx => hne hx.symm), hD]
          simp [sub_zero]
        · rw [if_neg hd, if_neg hd]
          by_cases ho : a = c.origem
          · subst ho
            rw [if_pos rfl, if_pos rfl, hO]
            have : (0 : ℚ) - c.valor = -c.valor := by ring
            rw [this]
            simp [sub_eq_add_neg]
          · rw [if_neg ho, if_neg ho]
            rw [show (0 : ℚ) - 0 = 0 by ring, delta_zero]
  · rw [if_neg hcom, delta_zero, comete_false_fix cfg c s (by simpa using hcom)]

lemma aplicarChamadas_getNat (cfg : Config) (calls : List Chamada) (s : Estado)
    (a : ℕ × ℕ) (n : Natureza) (h : getNat s a = some n) :
    ∃ m, getNat (aplicarChamadas cfg calls s) a = some m ∧
      m.saldo_atual = n.saldo_atual + variacao cfg calls s a ∧
      m.saldo_original = n.saldo_original ∧ m.fonte = n.fonte ∧ m.codigo = n.codigo := by
  induction calls generalizing s n with
  | nil => exact ⟨n, h, by rw [variacao, add_zero], rfl, rfl, rfl⟩
  | cons c cs ih =>
    have h1 := aplicarChamada_getNat_eq cfg c s a
    rw [h] at h1
    simp only [Option.map_some'] at h1
    obtain ⟨m, hm, hsa, hso, hfo, hco⟩ := ih (aplicarChamada cfg c s) _ h1
    refine ⟨m, by rw [aplicarChamadas]; exact hm, ?_, hso, hfo, hco⟩
    rw [hsa, variacao]
    dsimp only
    by_cases hcom : comete cfg c s = true <;> simp [hcom] <;> ring

lemma cometidasOrigens_saldo (cfg : Config) (calls : List Chamada) (s : Estado) :
    ∀ a ∈ cometidasOrigens cfg calls s, ∃ n, getNat s a = some n ∧ 0 < n.saldo_original := by
  induction calls generalizing s with
  | nil => intro a ha; simp [cometidasOrigens] at ha
  | cons c cs ih =>
    intro a ha
    rw [cometidasOrigens] at ha
    rcases List.mem_append.mp ha with ha | ha
    · by_cases hcom : comete cfg c s = true
      · rw [if_pos hcom] at ha
        simp only [List.mem_singleton] at ha
        subst ha
        rw [comete] at hcom
        cases hO : getNat s c.origem with
        | none => rw [hO] at hcom; simp at hcom
        | some nO =>
          refine ⟨nO, rfl, ?_⟩
          rw [hO] at hcom
          cases hD : getNat s c.destino with
          | none => rw [hD] at hcom; simp at hcom
          | some nD =>
            rw [hD] at hcom
            simp only [Bool.and_eq_true, Bool.not_eq_true', decide_eq_false_iff_not] at hcom
            exact lt_of_not_le hcom.1.1.1.1.1
      · rw [if_neg hcom] at ha; simp at ha
    · obtain ⟨n1, hn1, hp⟩ := ih (aplicarChamada cfg c s) a ha
      rw [aplicarChamada_getNat_eq cfg c s a] at hn1
      cases hs : getNat s a with
      | none => rw [hs] at hn1; simp at hn1
      | some n =>
        rw [hs] at hn1
        simp only [Option.map_some'] at hn1
        have h2 := Option.some.inj hn1
        rw [← h2] at hp
        exact ⟨n, rfl, hp⟩

lemma cometidasDestinos_saldo (cfg : Config) (calls : List Chamada) (s : Estado) :
    ∀ a ∈ cometidasDestinos cfg calls s, ∃ n, getNat s a = some n ∧ n.saldo_original < 0 := by
  induction calls generalizing s with
  | nil => intro a ha; simp [cometidasDestinos] at ha
  | cons c cs ih =>
    intro a ha
    rw [cometidasDestinos] at ha
    rcases List.mem_append.mp ha with ha | ha
    · by_cases hcom : comete cfg c s = true
      · rw [if_pos hcom] at ha
        simp only [List.mem_singleton] at ha
        subst ha
        rw [comete] at hcom
        cases hO : getNat s c.origem with
        | none => rw [hO] at hcom; simp at hcom
        | some nO =>
          rw [hO] at hcom
          cases hD : getNat s c.destino with
          | none => rw [hD] at hcom; simp at hcom
          | some nD =>
            refine ⟨nD, rfl, ?_⟩
            rw [hD] at hcom
            simp only [Bool.and_eq_true, Bool.not_eq_true', decide_eq_false_iff_not] at hcom
            exact lt_of_not_le hcom.1.1.1.1.2
      · rw [if_neg hcom] at ha; simp at ha
    · obtain ⟨n1, hn1, hp⟩ := ih (aplicarChamada cfg c s) a ha
      rw [aplicarChamada_getNat_eq cfg c s a] at hn1
      cases hs : getNat s a with
      | none => rw [hs] at hn1; simp at hn1
      | some n =>
        rw [hs] at hn1
        simp only [Option.map_some'] at hn1
        have h2 := Option.some.inj hn1
        rw [← h2] at hp
        exact ⟨n, rfl, hp⟩

/-- C9: over any sequence of registrar_transferencia calls, every source
address of a committed call holds a nature with saldo_original positive at
the start, every destination address one with saldo_original negative,
saldo_original never changes, and hence no address is both a committed
source and a committed destination. -/
theorem origens_destinos_disjuntas (cfg : Config) (calls : List Chamada) (s : Estado) :
    (∀ a ∈ cometidasOrigens cfg calls s, ∃ n, getNat s a = some n ∧ 0 < n.saldo_original) ∧
    (∀ a ∈ cometidasDestinos cfg calls s, ∃ n, getNat s a = some n ∧ n.saldo_original < 0) ∧
    (∀ a n, getNat s a = some n → ∃ m, getNat (aplicarChamadas cfg calls s) a = some m ∧
        m.saldo_original = n.saldo_original) ∧
    (∀ a, a ∈ cometidasOrigens cfg calls s → a ∉ cometidasDestinos cfg calls s) := by
  refine ⟨cometidasOrigens_saldo cfg calls s, cometidasDestinos_saldo cfg calls s, ?_, ?_⟩
  · intro a n h
    obtain ⟨m, h1, _, h3, _, _⟩ := aplicarChamadas_getNat cfg calls s a n h
    exact ⟨m, h1, h3⟩
  · intro a haO haD
    obtain ⟨n, hn, hpos⟩ := cometidasOrigens_saldo cfg calls s a haO
    obtain ⟨n2, hn2, hneg⟩ := cometidasDestinos_saldo cfg calls s a haD
    rw [hn] at hn2
    have := Option.some.inj hn2
    subst this
    exact absurd (hpos.trans hneg) (lt_irrefl 0)

/-- Witness for C9: the single committing call on estCoberturaUnica has
source address (0,0), which therefore is not among the committed
destinations. -/
theorem origens_destinos_disjuntas_witness :
    (0, 0) ∉ cometidasDestinos cfgComProibicoes [chamadaUnica] estCoberturaUnica :=
  (origens_destinos_disjuntas cfgComProibicoes [chamadaUnica] estCoberturaUnica).2.2.2
    (0, 0) (by decide)

/-- C7 (amended): across any sequence of registrar_transferencia calls the
final saldo_atual of every nature equals its starting saldo_atual plus the
net of the raw committed amounts (received minus donated), and
saldo_original is unchanged; the records instead store amounts rounded to
two decimals, so the record-Valor sums can differ. -/
theorem saldo_final_conservacao (cfg : Config) (calls : List Chamada) (s : Estado)
    (a : ℕ × ℕ) (n : Natureza) (h : getNat s a = some n) :
    ∃ m, getNat (aplicarChamadas cfg calls s) a = some m ∧
      m.saldo_atual = n.saldo_atual + variacao cfg calls s a ∧
      m.saldo_original = n.saldo_original := by
  obtain ⟨m, h1, h2, h3, _, _⟩ := aplicarChamadas_getNat cfg calls s a n h
  exact ⟨m, h1, h2, h3⟩

/-- Witness for C7: the destination nature of the single concrete call
ends at its starting balance plus the net committed amount. -/
theorem saldo_final_conservacao_witness :
    (getNat (aplicarChamadas cfgComProibicoes [chamadaUnica] estCoberturaUnica) (0, 1)).map Natureza.saldo_atual
      = some ((-200 : ℚ) + variacao cfgComProibicoes [chamadaUnica] estCoberturaUnica (0, 1)) := by
  obtain ⟨m, h1, h2, h3⟩ := saldo_final_conservacao cfgComProibicoes [chamadaUnica]
    estCoberturaUnica (0, 1) (mkNat "339018" "Servicos" (-200) (some 500)) (by decide)
  rw [h1, Option.map_some', h2]
  rfl

/-- C7 (counterexample): after the run on estValorQuebrado the committed
amount is 100.001 but the record stores 100.00, so the final saldo_atual
of the deficit nature (exactly 0) differs from saldo_original plus the sum
of record Valor received minus donated (-0.001). -/
theorem saldo_final_registros_contraexemplo :
    ((processar cfgPadrao estValorQuebrado).map (fun t =>
      (getNat t (0, 0)).map (fun n => decide (n.saldo_atual = n.saldo_original
        + somaRecebida t.remanejamentos "450201" "339018"
        - somaDoada t.remanejamentos "450201" "339018"))))
    = some (some false) := by decide

lemma estruturaEq_refl (s : Estado) : EstruturaEq s s := ⟨fun _ => rfl, fun _ => rfl⟩

lemma estruturaEq_trans {s t u : Estado} (h1 : EstruturaEq s t) (h2 : EstruturaEq t u) :
    EstruturaEq s u :=
  ⟨fun i => (h2.1 i).trans (h1.1 i), fun a => (h2.2 a).trans (h1.2 a)⟩

lemma estrutura_getNat {s t : Estado} (h : EstruturaEq s t) {a : ℕ × ℕ} {n : Natureza}
    (ha : getNat s a = some n) :
    ∃ m, getNat t a = some m ∧ m.codigo = n.codigo ∧ m.nome = n.nome ∧
      m.dois_primeiros_digitos = n.dois_primeiros_digitos ∧ m.fonte = n.fonte ∧
      m.saldo_original = n.saldo_original := by
  have h2 := h.2 a
  rw [ha] at h2
  cases hm : getNat t a with
  | none => rw [hm] at h2; simp at h2
  | some m =>
    rw [hm] at h2
    simp only [Option.map_some', Option.some.injEq, natEstavel, Prod.mk.injEq] at h2
    exact ⟨m, rfl, h2.1, h2.2.1, h2.2.2.1, h2.2.2.2.1, h2.2.2.2.2⟩

lemma estrutura_getNat_rev {s t : Estado} (h : EstruturaEq s t) {a : ℕ × ℕ} {m : Natureza}
    (ha : getNat t a = some m) :
    ∃ n, getNat s a = some n ∧ n.codigo = m.codigo ∧ n.fonte = m.fonte ∧
      n.saldo_original = m.saldo_original := by
  have h2 := h.2 a
  rw [ha] at h2
  cases hn : getNat s a with
  | none => rw [hn] at h2; simp at h2
  | some n =>
    rw [hn] at h2
    simp only [Option.map_some', Option.some.injEq, natEstavel, Prod.mk.injEq] at h2
    exact ⟨n, rfl, h2.1.symm, h2.2.2.2.1.symm, h2.2.2.2.2.symm⟩

lemma estrutura_ugCodigo {s t : Estado} (h : EstruturaEq s t) (i : ℕ) :
    t.ugs[i]?.map UG.codigo = s.ugs[i]?.map UG.codigo := by
  have h1 := h.1 i
  cases hu : t.ugs[i]? with
  | none => rw [hu] at h1; cases hv : s.ugs[i]? <;> rw [hv] at h1 <;> simp_all
  | some u =>
    rw [hu] at h1
    cases hv : s.ugs[i]? with
    | none => rw [hv] at h1; simp at h1
    | some v =>
      rw [hv] at h1
      simp only [Option.map_some', Option.some.injEq, ugEstavel, Prod.mk.injEq] at h1
      simp [h1.1]

lemma fonteOk_trans {cfg : Config} {s t : Estado} (h : EstruturaEq s t) {a : ℕ × ℕ}
    (hf : FonteOkCond cfg s a) : FonteOkCond cfg t a := by
  intro m hm
  obtain ⟨n, hn, _, hfo, _⟩ := estrutura_getNat_rev h hm
  rw [← hfo]
  exact hf n hn

lemma ugCodigo_trans {s t : Estado} (h : EstruturaEq s t) {i : ℕ} {c : String}
    (hc : UGCodigoCond s i c) : UGCodigoCond t i c := by
  intro u hu
  have h1 := estrutura_ugCodigo h i
  rw [hu] at h1
  cases hv : s.ugs[i]? with
  | none => rw [hv] at h1; simp at h1
  | some v =>
    rw [hv] at h1
    simp only [Option.map_some', Option.some.injEq] at h1
    rw [h1]
    exact hc v hv

lemma estrutura_ug {s t : Estado} (h : EstruturaEq s t) {i : ℕ} {u : UG}
    (hu : s.ugs[i]? = some u) :
    ∃ v, t.ugs[i]? = some v ∧ v.codigo = u.codigo ∧ v.fonte = u.fonte := by
  have h1 := h.1 i
  rw [hu] at h1
  cases hv : t.ugs[i]? with
  | none => rw [hv] at h1; simp at h1
  | some v =>
    rw [hv] at h1
    simp only [Option.map_some', Option.some.injEq, ugEstavel, Prod.mk.injEq] at h1
    exact ⟨v, rfl, h1.1, h1.2.2.1⟩

lemma estrutura_ug_rev {s t : Estado} (h : EstruturaEq s t) {i : ℕ} {v : UG}
    (hv : t.ugs[i]? = some v) :
    ∃ u, s.ugs[i]? = some u ∧ u.codigo = v.codigo ∧ u.fonte = v.fonte := by
  have h1 := h.1 i
  rw [hv] at h1
  cases hu : s.ugs[i]? with
  | none => rw [hu] at h1; simp at h1
  | some u =>
    rw [hu] at h1
    simp only [Option.map_some', Option.some.injEq, ugEstavel, Prod.mk.injEq] at h1
    exact ⟨u, rfl, h1.1.symm, h1.2.2.1.symm⟩

lemma ugFonte_trans {cfg : Config} {s t : Estado} (h : EstruturaEq s t) {i : ℕ}
    (hc : UGFonteCond cfg s i) : UGFonteCond cfg t i := by
  intro v hv
  obtain ⟨u, hu, _, hf⟩ := estrutura_ug_rev h hv
  rw [← hf]
  exact hc u hu

lemma recOK_trans {cfg : Config} {t u : Estado} (h : EstruturaEq t u) {r : Registro}
    (hr : RecOK cfg t r) : RecOK cfg u r := by
  obtain ⟨hp1, hp2, aO, nO, aD, nD, hO, hD, hcO, hcD,
    ⟨uO, huO, hucO, hufO⟩, ⟨uD, huD, hucD, hufD⟩, hfO, hfD⟩ := hr
  obtain ⟨mO, hmO, hcO2, _, _, hfO2, _⟩ := estrutura_getNat h hO
  obtain ⟨mD, hmD, hcD2, _, _, hfD2, _⟩ := estrutura_getNat h hD
  obtain ⟨vO, hvO, hvcO, hvfO⟩ := estrutura_ug h huO
  obtain ⟨vD, hvD, hvcD, hvfD⟩ := estrutura_ug h huD
  exact ⟨hp1, hp2, aO, mO, aD, mD, hmO, hmD, hcO2.trans hcO, hcD2.trans hcD,
    ⟨vO, hvO, hvcO.trans hucO, hvfO ▸ hufO⟩, ⟨vD, hvD, hvcD.trans hucD, hvfD ▸ hufD⟩,
    hfO2 ▸ hfO, hfD2 ▸ hfD⟩

lemma passInv_refl (cfg : Config) (s : Estado) : PassInv cfg s s :=
  ⟨estruturaEq_refl s, ⟨[], by simp, by simp⟩, fun _ _ h _ => h, fun _ _ _ h _ _ => h⟩

lemma passInv_trans {cfg : Config} {s t u : Estado}
    (h1 : PassInv cfg s t) (h2 : PassInv cfg t u) : PassInv cfg s u := by
  obtain ⟨he1, ⟨n1, hr1, hk1⟩, hp1, hq1⟩ := h1
  obtain ⟨he2, ⟨n2, hr2, hk2⟩, hp2, hq2⟩ := h2
  refine ⟨estruturaEq_trans he1 he2, ⟨n1 ++ n2, ?_, ?_⟩, ?_, ?_⟩
  · rw [hr2, hr1, List.append_assoc]
  · intro r hr
    rcases List.mem_append.mp hr with h | h
    · exact recOK_trans he2 (hk1 r h)
    · exact hk2 r h
  · intro a n ha hf
    exact hp2 a n (hp1 a n ha hf) hf
  · intro a n u ha hu hf
    obtain ⟨v, hv, _, hvf⟩ := estrutura_ug he1 hu
    exact hq2 a n v (hq1 a n u ha hu hf) hv (hvf.trans hf)

lemma ugs_modifyNat_estavel (s : Estado) (a : ℕ × ℕ) (f : Natureza → Natureza) (i : ℕ) :
    (modifyNat s a f).ugs[i]?.map ugEstavel = s.ugs[i]?.map ugEstavel := by
  rw [modifyNat]
  simp only [listModify_getElem?]
  by_cases h : i = a.1
  · rw [if_pos h]
    cases hu : s.ugs[i]? <;> simp [hu, ugEstavel, listModify_length]
  · rw [if_neg h]

lemma ugs_modifyNat_codigo (s : Estado) (a : ℕ × ℕ) (f : Natureza → Natureza) (i : ℕ) :
    (modifyNat s a f).ugs[i]?.map UG.codigo = s.ugs[i]?.map UG.codigo := by
  rw [modifyNat]
  simp only [listModify_getElem?]
  by_cases h : i = a.1
  · rw [if_pos h]
    cases hu : s.ugs[i]? <;> simp [hu]
  · rw [if_neg h]

lemma estruturaEq_modifyNat (s : Estado) (a : ℕ × ℕ) (f : Natureza → Natureza)
    (hf : ∀ n, natEstavel (f n) = natEstavel n) :
    EstruturaEq s (modifyNat s a f) := by
  refine ⟨ugs_modifyNat_estavel s a f, ?_⟩
  intro b
  rw [getNat_modifyNat]
  by_cases h : b = a
  · subst h
    cases hn : getNat s b <;> simp [hn, hf]
  · rw [if_neg h]

lemma getNat_some_ug {s : Estado} {a : ℕ × ℕ} {n : Natureza}
    (h : getNat s a = some n) : ∃ u, s.ugs[a.1]? = some u := by
  rw [getNat] at h
  cases hu : s.ugs[a.1]? with
  | none => rw [hu] at h; exact Option.noConfusion h
  | some u => exact ⟨u, rfl⟩

lemma registrar_passInv (cfg : Config) (ugO : String) (aO : ℕ × ℕ) (ugD : String)
    (aD : ℕ × ℕ) (v : ℚ) (tipo : String) (s : Estado)
    (hO : FonteOkCond cfg s aO) (hD : FonteOkCond cfg s aD)
    (huO : UGCodigoCond s aO.1 ugO) (huD : UGCodigoCond s aD.1 ugD)
    (hUO : UGFonteCond cfg s aO.1) (hUD : UGFonteCond cfg s aD.1) :
    PassInv cfg s (registrar_transferencia cfg ugO aO ugD aD v tipo s) := by
  cases hgO : getNat s aO with
  | none =>
    rw [registrar_transferencia, hgO]
    exact passInv_refl cfg s
  | some nO =>
    cases hgD : getNat s aD with
    | none =>
      rw [registrar_transferencia, hgO, hgD]
      exact passInv_refl cfg s
    | some nD =>
      by_cases hrej : Rejeita cfg nO nD v
      · rw [(registrar_casos cfg ugO aO ugD aD v tipo s nO nD hgO hgD).1 hrej]
        exact passInv_refl cfg s
      · obtain ⟨hrem, _, hO2, hD2, houtros⟩ :=
          (registrar_casos cfg ugO aO ugD aD v tipo s nO nD hgO hgD).2 hrej
        simp only [Rejeita, not_or] at hrej
        obtain ⟨h1, h2, h3, h4, h5, h6⟩ := hrej
        have hne : aO ≠ aD := by
          intro he
          rw [he, hgD] at hgO
          injection hgO with hx
          subst hx
          exact h1 (le_of_lt (lt_of_not_le h2))
        have hEq : EstruturaEq s (registrar_transferencia cfg ugO aO ugD aD v tipo s) := by
          constructor
          · intro i
            rw [registrar_transferencia, hgO, hgD]
            dsimp only
            rw [if_neg h1, if_neg h2, if_neg h3, if_neg h4,
              if_neg (by simpa using h5), if_neg (by simpa using h6)]
            rw [ugs_modifyNat_estavel, ugs_modifyNat_estavel]
          · intro b
            by_cases hb1 : b = aO
            · subst hb1
              rw [hO2, hgO]
              rfl
            · by_cases hb2 : b = aD
              · subst hb2
                rw [hD2, hgD]
                rfl
              · rw [houtros b hb1 hb2]
        obtain ⟨uO, huO2⟩ := getNat_some_ug hgO
        obtain ⟨uD, huD2⟩ := getNat_some_ug hgD
        obtain ⟨vO, hvO, hvOc, hvOf⟩ := estrutura_ug hEq huO2
        obtain ⟨vD, hvD, hvDc, hvDf⟩ := estrutura_ug hEq huD2
        refine ⟨hEq, ⟨[montarRegistro s ugO ugD tipo nO nD v], hrem, ?_⟩, ?_, ?_⟩
        · intro r hr
          simp only [List.mem_singleton] at hr
          subst hr
          refine ⟨by simpa using h5, by simpa using h6,
            aO, { nO with saldo_atual := nO.saldo_atual - v },
            aD, { nD with saldo_atual := nD.saldo_atual + v },
            hO2, hD2, rfl, rfl,
            ⟨vO, hvO, ?_, hvOf ▸ hUO uO huO2⟩,
            ⟨vD, hvD, ?_, hvDf ▸ hUD uD huD2⟩,
            hO nO hgO, hD nD hgD⟩
          · rw [hvOc, huO uO huO2]
            rfl
          · rw [hvDc, huD uD huD2]
            rfl
        · intro a n ha hf
          have haO : a ≠ aO := by
            intro he; subst he
            rw [ha] at hgO
            injection hgO with hx
            subst hx
            exact hO n ha hf
          have haD : a ≠ aD := by
            intro he; subst he
            rw [ha] at hgD
            injection hgD with hx
            subst hx
            exact hD n ha hf
          rw [houtros a haO haD]
          exact ha
        · intro a n u ha hu hf
          have haO : a ≠ aO := by
            intro he; subst he
            exact hUO u hu hf
          have haD : a ≠ aD := by
            intro he; subst he
            exact hUD u hu hf
          rw [houtros a haO haD]
          exact ha

lemma setNecessidade_passInv (cfg : Config) (s : Estado) (a : ℕ × ℕ) (q : ℚ)
    (h : FonteOkCond cfg s a) (hU : UGFonteCond cfg s a.1) :
    PassInv cfg s (setNecessidade s a q) := by
  refine ⟨estruturaEq_modifyNat s a _ (fun n => rfl),
    ⟨[], by rw [setNecessidade, modifyNat_remanejamentos]; simp, by simp⟩, ?_, ?_⟩
  · intro b n hb hf
    rw [setNecessidade, getNat_modifyNat]
    have hba : b ≠ a := by
      intro he; subst he
      exact h n hb hf
    rw [if_neg hba]
    exact hb
  · intro b n u hb hu hf
    rw [setNecessidade, getNat_modifyNat]
    have hba : b ≠ a := by
      intro he; subst he
      exact hU u hu hf
    rw [if_neg hba]
    exact hb

lemma mem_insereDesc {key : α → ℚ} {x a : α} {l : List α}
    (h : a ∈ insereDesc key x l) : a = x ∨ a ∈ l := by
  induction l with
  | nil => simpa [insereDesc] using h
  | cons y ys ih =>
    rw [insereDesc] at h
    split_ifs at h
    · simpa using h
    · rcases List.mem_cons.mp h with h | h
      · subst h; right; exact List.mem_cons_self _ _
      · rcases ih h with h | h
        · left; exact h
        · right; exact List.mem_cons_of_mem _ h

lemma mem_ordenaDesc {key : α → ℚ} {a : α} {l : List α}
    (h : a ∈ ordenaDesc key l) : a ∈ l := by
  induction l with
  | nil => simpa [ordenaDesc] using h
  | cons x xs ih =>
    rw [ordenaDesc] at h
    rcases mem_insereDesc h with h | h
    · subst h; exact List.mem_cons_self _ _
    · exact List.mem_cons_of_mem _ (ih h)

lemma ehSuperavitaria_fonteOk {cfg : Config} {s : Estado} {i j : ℕ}
    (h : ehSuperavitaria cfg s i j = true) : FonteOkCond cfg s (i, j) := by
  intro n hn
  rw [ehSuperavitaria, hn] at h
  simp only [Bool.and_eq_true, decide_eq_true_eq] at h
  exact h.1.2

lemma ehDeficitariaInterna_fonteOk {cfg : Config} {s : Estado} {i j : ℕ}
    (h : ehDeficitariaInterna cfg s i j = true) : FonteOkCond cfg s (i, j) := by
  intro n hn
  rw [ehDeficitariaInterna, hn] at h
  simp only [Bool.and_eq_true, decide_eq_true_eq] at h
  exact h.1.2

lemma ehDeficitResidual_fonteOk {cfg : Config} {s : Estado} {i j : ℕ}
    (h : ehDeficitResidual cfg s i j = true) : FonteOkCond cfg s (i, j) := by
  intro n hn
  rw [ehDeficitResidual, hn] at h
  simp only [Bool.and_eq_true, decide_eq_true_eq] at h
  exact h.1.2

lemma varreComDesconto_passInv (cfg : Config) (ugO : String) (iD : ℕ) (ugD : String)
    (aDef : ℕ × ℕ) (tipo : String) :
    ∀ (ks : List ℕ) (nec : ℚ) (vt : Option ℚ) (s : Estado),
      (∀ k ∈ ks, FonteOkCond cfg s (iD, k)) → FonteOkCond cfg s aDef →
      UGCodigoCond s iD ugO → UGCodigoCond s aDef.1 ugD →
      UGFonteCond cfg s iD → UGFonteCond cfg s aDef.1 →
      PassInv cfg s (varreComDesconto cfg ugO iD ugD aDef tipo ks nec vt s).1 := by
  intro ks
  induction ks with
  | nil => intro nec vt s _ _ _ _ _ _; exact passInv_refl cfg s
  | cons k ks ih =>
    intro nec vt s hks hdef hugO hugD hUO hUD
    rw [varreComDesconto]
    dsimp only
    split_ifs with h1 h2
    · exact passInv_refl cfg s
    · exact ih nec vt s (fun x hx => hks x (List.mem_cons_of_mem _ hx)) hdef hugO hugD hUO hUD
    · have hreg := registrar_passInv cfg ugO (iD, k) ugD aDef (min nec (capacidadeEm s iD k))
        tipo s (hks k (List.mem_cons_self _ _)) hdef (by simpa using hugO) hugD
        (by simpa using hUO) hUD
      have he := hreg.1
      exact passInv_trans hreg (ih _ _ _
        (fun x hx => fonteOk_trans he (hks x (List.mem_cons_of_mem _ hx)))
        (fonteOk_trans he hdef) (ugCodigo_trans he hugO) (ugCodigo_trans he hugD)
        (ugFonte_trans he hUO) (ugFonte_trans he hUD))

lemma varreSemDesconto_passInv (cfg : Config) (ugO : String) (iD : ℕ) (ugD : String)
    (aDef : ℕ × ℕ) (tipo : String) :
    ∀ (ks : List ℕ) (nec : ℚ) (vt : Option ℚ) (s : Estado),
      (∀ k ∈ ks, FonteOkCond cfg s (iD, k)) → FonteOkCond cfg s aDef →
      UGCodigoCond s iD ugO → UGCodigoCond s aDef.1 ugD →
      UGFonteCond cfg s iD → UGFonteCond cfg s aDef.1 →
      PassInv cfg s (varreSemDesconto cfg ugO iD ugD aDef tipo ks nec vt s).1 := by
  intro ks
  induction ks with
  | nil => intro nec vt s _ _ _ _ _ _; exact passInv_refl cfg s
  | cons k ks ih =>
    intro nec vt s hks hdef hugO hugD hUO hUD
    rw [varreSemDesconto]
    dsimp only
    split_ifs with h1 h2
    · exact passInv_refl cfg s
    · exact ih nec vt s (fun x hx => hks x (List.mem_cons_of_mem _ hx)) hdef hugO hugD hUO hUD
    · have hreg := registrar_passInv cfg ugO (iD, k) ugD aDef (min nec (capacidadeEm s iD k))
        tipo s (hks k (List.mem_cons_self _ _)) hdef (by simpa using hugO) hugD
        (by simpa using hUO) hUD
      have he := hreg.1
      exact passInv_trans hreg (ih _ _ _
        (fun x hx => fonteOk_trans he (hks x (List.mem_cons_of_mem _ hx)))
        (fonteOk_trans he hdef) (ugCodigo_trans he hugO) (ugCodigo_trans he hugD)
        (ugFonte_trans he hUO) (ugFonte_trans he hUD))

lemma internoDeficit_passInv (cfg : Config) (i : ℕ) (ugC : String)
    (sups : List ℕ) (j : ℕ) (vt : Option ℚ) (s : Estado)
    (hsups : ∀ k ∈ sups, FonteOkCond cfg s (i, k))
    (hdef : FonteOkCond cfg s (i, j))
    (hug : UGCodigoCond s i ugC)
    (hUF : UGFonteCond cfg s i) :
    PassInv cfg s (internoDeficit cfg i ugC sups j vt s).1 := by
  rw [internoDeficit]
  cases hgd : getNat s (i, j) with
  | none => exact passInv_refl cfg s
  | some natDef =>
    dsimp only
    by_cases hnec : natDef.necessidade_total.getD |natDef.saldo_atual| ≤ 1/100
    · rw [if_pos hnec]
      exact passInv_refl cfg s
    · rw [if_neg hnec]
      have hprior : ∀ k ∈ ordenaDesc (saldoAtualEm s i)
          (sups.filter (fun k => decide (digitosEm s i k = natDef.dois_primeiros_digitos))),
          FonteOkCond cfg s (i, k) := by
        intro k hk
        exact hsups k (List.mem_of_mem_filter (mem_ordenaDesc hk))
      have hsec : ∀ k ∈ ordenaDesc (saldoAtualEm s i)
          (sups.filter (fun k => decide (digitosEm s i k ≠ natDef.dois_primeiros_digitos))),
          FonteOkCond cfg s (i, k) := by
        intro k hk
        exact hsups k (List.mem_of_mem_filter (mem_ordenaDesc hk))
      cases hu : (if PRIORIZAR_DOACAO_UNICA then
          (ordenaDesc (saldoAtualEm s i) (sups.filter (fun k => decide (digitosEm s i k = natDef.dois_primeiros_digitos))) ++
           ordenaDesc (saldoAtualEm s i) (sups.filter (fun k => decide (digitosEm s i k ≠ natDef.dois_primeiros_digitos)))).find?
            (fun k => decide (natDef.necessidade_total.getD |natDef.saldo_atual| ≤ capacidadeEm s i k))
        else none) with
      | some k =>
        have hu2 : ((ordenaDesc (saldoAtualEm s i) (sups.filter (fun k => decide (digitosEm s i k = natDef.dois_primeiros_digitos)))) ++
            (ordenaDesc (saldoAtualEm s i) (sups.filter (fun k => decide (digitosEm s i k ≠ natDef.dois_primeiros_digitos))))).find?
              (fun k => decide (natDef.necessidade_total.getD |natDef.saldo_atual| ≤ capacidadeEm s i k)) = some k := by
          cases hp : PRIORIZAR_DOACAO_UNICA
          · rw [hp, if_neg (by simp)] at hu
            exact Option.noConfusion hu
          · rw [hp, if_pos rfl] at hu
            exact hu
        have hkmem := List.mem_of_find?_eq_some hu2
        have hkOk : FonteOkCond cfg s (i, k) := by
          rcases List.mem_append.mp hkmem with hm | hm
          · exact hprior k hm
          · exact hsec k hm
        have hreg := registrar_passInv cfg ugC (i, k) ugC (i, j)
          (natDef.necessidade_total.getD |natDef.saldo_atual|) "Interna (única)" s hkOk hdef
          (by simpa using hug) (by simpa using hug) (by simpa using hUF) (by simpa using hUF)
        exact passInv_trans hreg (setNecessidade_passInv cfg _ (i, j) 0
          (fonteOk_trans hreg.1 hdef) (ugFonte_trans hreg.1 (by simpa using hUF)))
      | none =>
        rcases hv1 : varreComDesconto cfg ugC i ugC (i, j) "Interna (mesmos dígitos)"
          (ordenaDesc (saldoAtualEm s i) (sups.filter (fun k => decide (digitosEm s i k = natDef.dois_primeiros_digitos))))
          (natDef.necessidade_total.getD |natDef.saldo_atual|) vt s with ⟨sA, necA, vtA⟩
        have hpA : PassInv cfg s sA := by
          have := varreComDesconto_passInv cfg ugC i ugC (i, j) "Interna (mesmos dígitos)"
            (ordenaDesc (saldoAtualEm s i) (sups.filter (fun k => decide (digitosEm s i k = natDef.dois_primeiros_digitos))))
            (natDef.necessidade_total.getD |natDef.saldo_atual|) vt s hprior hdef
            (by simpa using hug) (by simpa using hug) (by simpa using hUF) (by simpa using hUF)
          rwa [hv1] at this
        dsimp only
        rcases hv2 : varreSemDesconto cfg ugC i ugC (i, j) "Interna"
          (ordenaDesc (saldoAtualEm s i) (sups.filter (fun k => decide (digitosEm s i k ≠ natDef.dois_primeiros_digitos))))
          necA vtA sA with ⟨sB, vtB⟩
        have hpB : PassInv cfg sA sB := by
          have := varreSemDesconto_passInv cfg ugC i ugC (i, j) "Interna"
            (ordenaDesc (saldoAtualEm s i) (sups.filter (fun k => decide (digitosEm s i k ≠ natDef.dois_primeiros_digitos))))
            necA vtA sA (fun k hk => fonteOk_trans hpA.1 (hsec k hk))
            (fonteOk_trans hpA.1 hdef) (ugCodigo_trans hpA.1 (by simpa using hug))
            (ugCodigo_trans hpA.1 (by simpa using hug))
            (ugFonte_trans hpA.1 (by simpa using hUF)) (ugFonte_trans hpA.1 (by simpa using hUF))
          rwa [hv2] at this
        cases vtB with
        | none => exact passInv_trans hpA hpB
        | some v =>
          dsimp only
          exact passInv_trans hpA (passInv_trans hpB
            (setNecessidade_passInv cfg sB (i, j) (max 0 (necA - v))
              (fonteOk_trans hpB.1 (fonteOk_trans hpA.1 hdef))
              (ugFonte_trans hpB.1 (ugFonte_trans hpA.1 (by simpa using hUF)))))

lemma internoDeficits_passInv (cfg : Config) (i : ℕ) (ugC : String) (sups : List ℕ) :
    ∀ (js : List ℕ) (vt : Option ℚ) (s : Estado),
      (∀ k ∈ sups, FonteOkCond cfg s (i, k)) →
      (∀ j ∈ js, FonteOkCond cfg s (i, j)) →
      UGCodigoCond s i ugC → UGFonteCond cfg s i →
      PassInv cfg s (internoDeficits cfg i ugC sups js vt s).1 := by
  intro js
  induction js with
  | nil => intro vt s _ _ _ _; exact passInv_refl cfg s
  | cons j js ih =>
    intro vt s hsups hjs hug hUF
    rw [internoDeficits]
    rcases hd : internoDeficit cfg i ugC sups j vt s with ⟨s1, vt1, ab⟩
    have hpA : PassInv cfg s s1 := by
      have := internoDeficit_passInv cfg i ugC sups j vt s hsups
        (hjs j (List.mem_cons_self _ _)) hug hUF
      rwa [hd] at this
    cases ab with
    | false =>
      dsimp only
      exact passInv_trans hpA (ih vt1 s1
        (fun k hk => fonteOk_trans hpA.1 (hsups k hk))
        (fun x hx => fonteOk_trans hpA.1 (hjs x (List.mem_cons_of_mem _ hx)))
        (ugCodigo_trans hpA.1 hug) (ugFonte_trans hpA.1 hUF))
    | true => exact hpA

lemma internoUG_passInv (cfg : Config) (i : ℕ) (vt : Option ℚ) (s : Estado) :
    PassInv cfg s (internoUG cfg i vt s).1 := by
  rw [internoUG]
  cases hu : s.ugs[i]? with
  | none => exact passInv_refl cfg s
  | some ug =>
    dsimp only
    split_ifs with h1 h2 h3
    any_goals exact passInv_refl cfg s
    exact internoDeficits_passInv cfg i ug.codigo _ _ vt s
      (fun k hk => ehSuperavitaria_fonteOk (List.of_mem_filter hk))
      (fun j hj => ehDeficitariaInterna_fonteOk (List.of_mem_filter hj))
      (fun u hu2 => by rw [hu] at hu2; injection hu2 with hu2; rw [hu2])
      (fun u hu2 => by rw [hu] at hu2; injection hu2 with hu2; rw [hu2] at h1; exact h1)

lemma internoUGsLoop_passInv (cfg : Config) :
    ∀ (resto : List ℕ) (vt : Option ℚ) (s : Estado),
      PassInv cfg s (internoUGsLoop cfg resto vt s).1 := by
  intro resto
  induction resto with
  | nil => intro vt s; exact passInv_refl cfg s
  | cons i resto ih =>
    intro vt s
    rw [internoUGsLoop]
    rcases hu : internoUG cfg i vt s with ⟨s1, vt1, ab⟩
    have hpA : PassInv cfg s s1 := by
      have := internoUG_passInv cfg i vt s
      rwa [hu] at this
    cases ab with
    | false =>
      dsimp only
      exact passInv_trans hpA (ih vt1 s1)
    | true => exact hpA

lemma remanejamento_interno_nucleo_passInv (cfg : Config) (s : Estado) :
    PassInv cfg s (remanejamento_interno_nucleo cfg s).1 := by
  rw [remanejamento_interno_nucleo]
  exact internoUGsLoop_passInv cfg (List.range s.ugs.length) none s

lemma identificarNaturezas_passInv (cfg : Config) (i : ℕ) :
    ∀ (js : List ℕ) (s : Estado) (c : ℕ), UGFonteCond cfg s i →
      PassInv cfg s (identificarNaturezas cfg i js (s, c)).1 := by
  intro js
  induction js with
  | nil => intro s c _; exact passInv_refl cfg s
  | cons j js ih =>
    intro s c hUF
    rw [identificarNaturezas]
    cases hg : getNat s (i, j) with
    | none => exact ih s c hUF
    | some n =>
      dsimp only
      split_ifs with h1 h2 h3
      · exact ih s c hUF
      · exact ih s c hUF
      · exact ih s c hUF
      · have hset := setNecessidade_passInv cfg s (i, j) |n.saldo_original| (by
          intro m hm
          rw [hg] at hm
          injection hm with hm
          subst hm
          exact h2) hUF
        exact passInv_trans hset (ih _ _ (ugFonte_trans hset.1 hUF))

lemma identificarUGs_passInv (cfg : Config) :
    ∀ (resto : List ℕ) (s : Estado) (c : ℕ),
      PassInv cfg s (identificarUGs cfg resto (s, c)).1 := by
  intro resto
  induction resto with
  | nil => intro s c; exact passInv_refl cfg s
  | cons i resto ih =>
    intro s c
    rw [identificarUGs]
    cases hu : s.ugs[i]? with
    | none => exact ih s c
    | some ug =>
      dsimp only
      split_ifs with h1
      · exact ih s c
      · rcases hx : identificarNaturezas cfg i (List.range ug.naturezas.length) (s, c) with ⟨sA, cA⟩
        have h2 := identificarNaturezas_passInv cfg i (List.range ug.naturezas.length) s c
          (fun u hu2 => by rw [hu] at hu2; injection hu2 with hu2; rw [hu2] at h1; exact h1)
        rw [hx] at h2
        have h3 := ih sA cA
        exact passInv_trans h2 h3

lemma identificar_deficits_passInv (cfg : Config) (s : Estado) :
    PassInv cfg s (identificar_deficits cfg s).1 :=
  identificarUGs_passInv cfg (List.range s.ugs.length) s 0

lemma mem_ugsDoadorasPara {cfg : Config} {s : Estado} {f : Option ℤ} {c : String}
    {d : UGDoadora} (h : d ∈ ugsDoadorasPara cfg s f c) :
    (∀ k ∈ d.naturezasSuper, ehSuperavitaria cfg s d.idx k = true) ∧
    UGFonteCond cfg s d.idx := by
  rw [ugsDoadorasPara] at h
  rw [List.mem_filterMap] at h
  obtain ⟨i, _, heq⟩ := h
  cases hu : s.ugs[i]? with
  | none => rw [hu] at heq; exact Option.noConfusion heq
  | some ug =>
    rw [hu] at heq
    dsimp only at heq
    split_ifs at heq with h1 h2 h3 h4
    injection heq with heq
    subst heq
    refine ⟨fun k hk => List.of_mem_filter hk, fun u hu2 => ?_⟩
    rw [hu] at hu2
    injection hu2 with hu2
    rw [hu2] at h1
    exact h1

lemma mem_ugsDeficitarias {cfg : Config} {s : Estado} {e : UGDeficitaria}
    (h : e ∈ ugsDeficitarias cfg s) :
    (∀ j ∈ e.naturezasDeficit, ehDeficitResidual cfg s e.idx j = true) ∧
    UGFonteCond cfg s e.idx := by
  rw [ugsDeficitarias] at h
  rw [List.mem_filterMap] at h
  obtain ⟨i, _, heq⟩ := h
  cases hu : s.ugs[i]? with
  | none => rw [hu] at heq; exact Option.noConfusion heq
  | some ug =>
    rw [hu] at heq
    dsimp only at heq
    split_ifs at heq with h1 h2
    injection heq with heq
    subst heq
    refine ⟨fun j hj => List.of_mem_filter hj, fun u hu2 => ?_⟩
    rw [hu] at hu2
    injection hu2 with hu2
    rw [hu2] at h1
    exact h1

lemma externoDoadoras_passInv (cfg : Config) (ugD : String) (aDef : ℕ × ℕ) (digitos : String) :
    ∀ (ds : List UGDoadora) (nec : ℚ) (s : Estado),
      (∀ d ∈ ds, ∀ k ∈ d.naturezasSuper, FonteOkCond cfg s (d.idx, k)) →
      (∀ d ∈ ds, UGFonteCond cfg s d.idx) →
      FonteOkCond cfg s aDef → UGCodigoCond s aDef.1 ugD → UGFonteCond cfg s aDef.1 →
      PassInv cfg s (externoDoadoras cfg ugD aDef digitos ds nec s).1 := by
  intro ds
  induction ds with
  | nil => intro nec s _ _ _ _ _; exact passInv_refl cfg s
  | cons d ds ih =>
    intro nec s hds hdsU hdef hug hUdef
    rw [externoDoadoras]
    dsimp only
    split_ifs with h1
    · exact passInv_refl cfg s
    · have hcod : UGCodigoCond s d.idx (ugCodigoEm s d.idx) := by
        intro u hu
        rw [ugCodigoEm, hu]
      have hUdon : UGFonteCond cfg s d.idx := hdsU d (List.mem_cons_self _ _)
      rcases hv1 : varreComDesconto cfg (ugCodigoEm s d.idx) d.idx ugD aDef
          "Externa (mesmos dígitos)"
          (ordenaDesc (saldoAtualEm s d.idx)
            (d.naturezasSuper.filter (fun k => decide (digitosEm s d.idx k = digitos))))
          nec none s with ⟨sA, necA, vtA⟩
      have hpA : PassInv cfg s sA := by
        have := varreComDesconto_passInv cfg (ugCodigoEm s d.idx) d.idx ugD aDef
          "Externa (mesmos dígitos)"
          (ordenaDesc (saldoAtualEm s d.idx)
            (d.naturezasSuper.filter (fun k => decide (digitosEm s d.idx k = digitos))))
          nec none s (fun k hk => hds d (List.mem_cons_self _ _) k
            (List.mem_of_mem_filter (mem_ordenaDesc hk))) hdef hcod hug hUdon hUdef
        rwa [hv1] at this
      dsimp only
      rcases hv2 : varreComDesconto cfg (ugCodigoEm s d.idx) d.idx ugD aDef "Externa"
          (ordenaDesc (saldoAtualEm s d.idx)
            (d.naturezasSuper.filter (fun k => decide (digitosEm s d.idx k ≠ digitos))))
          necA none sA with ⟨sB, necB, vtB⟩
      have hpB : PassInv cfg sA sB := by
        have := varreComDesconto_passInv cfg (ugCodigoEm s d.idx) d.idx ugD aDef "Externa"
          (ordenaDesc (saldoAtualEm s d.idx)
            (d.naturezasSuper.filter (fun k => decide (digitosEm s d.idx k ≠ digitos))))
          necA none sA (fun k hk => fonteOk_trans hpA.1 (hds d (List.mem_cons_self _ _) k
            (List.mem_of_mem_filter (mem_ordenaDesc hk))))
          (fonteOk_trans hpA.1 hdef) (ugCodigo_trans hpA.1 hcod) (ugCodigo_trans hpA.1 hug)
          (ugFonte_trans hpA.1 hUdon) (ugFonte_trans hpA.1 hUdef)
        rwa [hv2] at this
      dsimp only
      have hpAB := passInv_trans hpA hpB
      exact passInv_trans hpAB (ih necB sB
        (fun x hx k hk => fonteOk_trans hpAB.1 (hds x (List.mem_cons_of_mem _ hx) k hk))
        (fun x hx => ugFonte_trans hpAB.1 (hdsU x (List.mem_cons_of_mem _ hx)))
        (fonteOk_trans hpAB.1 hdef) (ugCodigo_trans hpAB.1 hug)
        (ugFonte_trans hpAB.1 hUdef))

lemma externoDeficits_passInv (cfg : Config) (iDef : ℕ) (ugD : String)
    (doadoras : List UGDoadora) :
    ∀ (js : List ℕ) (s : Estado),
      (∀ d ∈ doadoras, ∀ k ∈ d.naturezasSuper, FonteOkCond cfg s (d.idx, k)) →
      (∀ d ∈ doadoras, UGFonteCond cfg s d.idx) →
      (∀ j ∈ js, FonteOkCond cfg s (iDef, j)) →
      UGCodigoCond s iDef ugD → UGFonteCond cfg s iDef →
      PassInv cfg s (externoDeficits cfg iDef ugD doadoras js s) := by
  intro js
  induction js with
  | nil => intro s _ _ _ _ _; exact passInv_refl cfg s
  | cons j js ih =>
    intro s hdo hdoU hjs hug hUF
    rw [externoDeficits]
    cases hg : getNat s (iDef, j) with
    | none =>
      exact ih s hdo hdoU (fun x hx => hjs x (List.mem_cons_of_mem _ hx)) hug hUF
    | some natDef =>
      dsimp only
      split_ifs with h1
      · exact ih s hdo hdoU (fun x hx => hjs x (List.mem_cons_of_mem _ hx)) hug hUF
      · rcases hv : externoDoadoras cfg ugD (iDef, j) natDef.dois_primeiros_digitos doadoras
          (natDef.necessidade_total.getD |natDef.saldo_atual|) s with ⟨sA, necA⟩
        have hpA : PassInv cfg s sA := by
          have := externoDoadoras_passInv cfg ugD (iDef, j) natDef.dois_primeiros_digitos
            doadoras (natDef.necessidade_total.getD |natDef.saldo_atual|) s hdo hdoU
            (hjs j (List.mem_cons_self _ _)) (by simpa using hug) (by simpa using hUF)
          rwa [hv] at this
        dsimp only
        have hset := setNecessidade_passInv cfg sA (iDef, j) (max 0 necA)
          (fonteOk_trans hpA.1 (hjs j (List.mem_cons_self _ _)))
          (ugFonte_trans hpA.1 (by simpa using hUF))
        have hpAB := passInv_trans hpA hset
        exact passInv_trans hpAB (ih _
          (fun d hd k hk => fonteOk_trans hpAB.1 (hdo d hd k hk))
          (fun d hd => ugFonte_trans hpAB.1 (hdoU d hd))
          (fun x hx => fonteOk_trans hpAB.1 (hjs x (List.mem_cons_of_mem _ hx)))
          (ugCodigo_trans hpAB.1 hug) (ugFonte_trans hpAB.1 hUF))

lemma externoEntries_passInv (cfg : Config) :
    ∀ (es : List UGDeficitaria) (s : Estado),
      (∀ e ∈ es, ∀ j ∈ e.naturezasDeficit, FonteOkCond cfg s (e.idx, j)) →
      (∀ e ∈ es, UGFonteCond cfg s e.idx) →
      PassInv cfg s (externoEntries cfg es s) := by
  intro es
  induction es with
  | nil => intro s _ _; exact passInv_refl cfg s
  | cons e es ih =>
    intro s hes hesU
    rw [externoEntries]
    dsimp only
    split_ifs with h1
    · exact ih s (fun x hx => hes x (List.mem_cons_of_mem _ hx))
        (fun x hx => hesU x (List.mem_cons_of_mem _ hx))
    · have hugD : UGCodigoCond s e.idx (ugCodigoEm s e.idx) := by
        intro u hu
        rw [ugCodigoEm, hu]
      have hdon : ∀ d ∈ ordenaDesc (fun d => d.superavitTotal)
          (ugsDoadorasPara cfg s e.fonte (ugCodigoEm s e.idx)),
          ∀ k ∈ d.naturezasSuper, FonteOkCond cfg s (d.idx, k) := by
        intro d hd k hk
        exact ehSuperavitaria_fonteOk ((mem_ugsDoadorasPara (mem_ordenaDesc hd)).1 k hk)
      have hdonU : ∀ d ∈ ordenaDesc (fun d => d.superavitTotal)
          (ugsDoadorasPara cfg s e.fonte (ugCodigoEm s e.idx)),
          UGFonteCond cfg s d.idx := by
        intro d hd
        exact (mem_ugsDoadorasPara (mem_ordenaDesc hd)).2
      have hdefs : ∀ j ∈ e.naturezasDeficit, FonteOkCond cfg s (e.idx, j) :=
        hes e (List.mem_cons_self _ _)
      have hpA := externoDeficits_passInv cfg e.idx (ugCodigoEm s e.idx) _
        e.naturezasDeficit s hdon hdonU hdefs hugD (hesU e (List.mem_cons_self _ _))
      exact passInv_trans hpA (ih _
        (fun x hx j hj => fonteOk_trans hpA.1 (hes x (List.mem_cons_of_mem _ hx) j hj))
        (fun x hx => ugFonte_trans hpA.1 (hesU x (List.mem_cons_of_mem _ hx))))

lemma remanejamento_externo_passInv (cfg : Config) (s : Estado) :
    PassInv cfg s (remanejamento_externo cfg s) := by
  rw [remanejamento_externo]
  split_ifs with h1
  · exact passInv_refl cfg s
  · exact externoEntries_passInv cfg (ugsDeficitarias cfg s) s
      (fun e he j hj => ehDeficitResidual_fonteOk ((mem_ugsDeficitarias he).1 j hj))
      (fun e he => (mem_ugsDeficitarias he).2)

lemma processar_nucleo_passInv (cfg : Config) (s : Estado) :
    PassInv cfg s (processar_nucleo cfg s).1 := by
  rw [processar_nucleo]
  rcases hN : remanejamento_interno_nucleo cfg (identificar_deficits cfg s).1
    with ⟨s1, vt1, ab⟩
  have h1 := identificar_deficits_passInv cfg s
  have h2 : PassInv cfg (identificar_deficits cfg s).1 s1 := by
    have := remanejamento_interno_nucleo_passInv cfg (identificar_deficits cfg s).1
    rwa [hN] at this
  cases ab with
  | false =>
    dsimp only
    exact passInv_trans h1 (passInv_trans h2 (remanejamento_externo_passInv cfg s1))
  | true => exact passInv_trans h1 h2

/-- C5: along any run starting from a freshly parsed state — including a
run that dies with the UnboundLocalError inside the internal pass — every
committed transfer record has non-prohibited source and destination nature
codes (after stripping dots and spaces), and the source nature, the
destination nature and both their owning units all carry a resolved fund
different from the configured prohibited fund. -/
theorem registros_nunca_proibidos (cfg : Config) (s0 : Estado)
    (h0 : s0.remanejamentos = []) :
    ∀ r ∈ (processar_nucleo cfg s0).1.remanejamentos,
      RecOK cfg (processar_nucleo cfg s0).1 r := by
  obtain ⟨_, ⟨novos, hrem, hok⟩, _, _⟩ := processar_nucleo_passInv cfg s0
  rw [h0, List.nil_append] at hrem
  rw [hrem]
  exact hok

/-- Witness for C5: the single record of the run on estCoberturaUnica. -/
theorem registros_nunca_proibidos_witness :
    estCoberturaUnica.remanejamentos = [] ∧
    RecOK cfgComProibicoes (processar_nucleo cfgComProibicoes estCoberturaUnica).1
      registroCoberturaUnica :=
  ⟨rfl, registros_nunca_proibidos cfgComProibicoes estCoberturaUnica rfl
    registroCoberturaUnica (by decide)⟩

/-- C10: with no prohibited fund configured, every equality test against
None excludes the fund-less rows: over the whole run (deficit
identification, internal pass — even one that dies with the
UnboundLocalError — and external pass) every nature whose own resolved
fund is None is left exactly as parsed, every nature belonging to a unit
whose fund is None is left exactly as parsed even when the nature carries
its own fund, and from a freshly parsed state every committed record draws
its source and destination from natures and units whose funds are not
None. -/
theorem fonte_none_excluida (probs : List String) (s0 : Estado) :
    (∀ a : ℕ × ℕ, ∀ n, getNat s0 a = some n → n.fonte = none →
      getNat (processar_nucleo { fonteProibida := none, naturezasProibidas := probs } s0).1 a
        = some n) ∧
    (∀ a : ℕ × ℕ, ∀ n u, getNat s0 a = some n → s0.ugs[a.1]? = some u → u.fonte = none →
      getNat (processar_nucleo { fonteProibida := none, naturezasProibidas := probs } s0).1 a
        = some n) ∧
    (s0.remanejamentos = [] →
      ∀ r ∈ (processar_nucleo { fonteProibida := none, naturezasProibidas := probs } s0).1.remanejamentos,
        RecOK { fonteProibida := none, naturezasProibidas := probs }
          (processar_nucleo { fonteProibida := none, naturezasProibidas := probs } s0).1 r) := by
  obtain ⟨_, ⟨novos, hrem, hok⟩, hp, hq⟩ :=
    processar_nucleo_passInv { fonteProibida := none, naturezasProibidas := probs } s0
  refine ⟨hp, hq, fun h0 => ?_⟩
  rw [h0, List.nil_append] at hrem
  rw [hrem]
  exact hok

/-- Witness for C10: the run on estComUGSemFonte reaches the external pass
with a residual deficit in the first unit, and the fund-500 surplus nature
inside the fund-less second unit is left exactly as parsed. -/
theorem fonte_none_excluida_witness :
    getNat (processar_nucleo cfgSemFonteProibida estComUGSemFonte).1 (1, 1)
      = some (mkNat "319013" "Obrigacoes" 300 (some 500)) :=
  (fonte_none_excluida [] estComUGSemFonte).2.1 (1, 1)
    (mkNat "319013" "Obrigacoes" 300 (some 500)) ugSemFonte
    (by decide) (by decide) rfl

end Orcamento
